import Mathlib

/-!
# merge_excel_to_sheets: a shallow embedding of `main.go`

The Go program walks a directory tree, filters the files it meets, derives a
sheet name for every sheet of every workbook, makes the names unique and copies
the sheets into one output workbook.

Conventions of the embedding

* A Go `string` is a sequence of bytes (`GoString`); `len` and slicing count
  bytes, exactly as in Go.  `utf8` turns text into its UTF-8 bytes.
* A Go `int` is an `Int` wrapped to 64 bits (`wrapInt`).
* A `map[string]int` is a function into `Option Int`.
* Interfaces (`FileFilter`, `SheetNamer`) are records of their single method.
* Everything the program asks of the operating system and of the spreadsheet
  library is a field of `GoStd` / `World`; calls with an effect are
  appended to a trace of `Op`s.  `fmt.Printf` progress lines are not recorded.
-/

namespace MergeExcel

/-! ## Strings -/

/-- A Go `string`: a sequence of bytes. -/
abbrev GoString := List Nat

/-- The UTF-8 bytes of a sequence of characters. -/
def utf8Chars (cs : List Char) : GoString :=
  cs.flatMap (fun c => (String.utf8EncodeChar c).map UInt8.toNat)

/-- The UTF-8 bytes of a text, as a Go string literal holds them. -/
def utf8 (s : String) : GoString := utf8Chars s.toList

/-- The byte `/`, `filepath.Separator` on Unix. -/
def Separator : Nat := 47

/-- The byte `.`. -/
def dot : Nat := 46

/-- The byte `_`. -/
def underscore : Nat := 95

/-- Go `int` arithmetic on a 64-bit platform: results wrap into
`[-2^63, 2^63)`. -/
def wrapInt (x : Int) : Int :=
  (x + 9223372036854775808) % 18446744073709551616 - 9223372036854775808

/-- Decimal digits of a natural number, as ASCII bytes. -/
def decimal (n : Nat) : GoString := (Nat.toDigits 10 n).map Char.toNat

/-- The verb `%d` of `fmt.Sprintf` applied to an `int`. -/
def fmtInt : Int → GoString
  | Int.ofNat n => decimal n
  | Int.negSucc n => 45 :: decimal (n + 1)

/-! ## Pure functions of the Go standard library

`filepath.Ext`, `filepath.Base`, `strings.TrimSuffix`, `strings.Split` and
`strings.ReplaceAll` are written out after their Go sources (Unix build).  The
program only ever splits at and replaces the one-byte string
`string(filepath.Separator)`, so both take that byte. -/

/-- The backwards scan of `filepath.Ext`: `rev` is what is left of the path,
last byte first, and `acc` the bytes already passed. -/
def extScan : List Nat → GoString → GoString
  | [], _ => []
  | c :: rest, acc =>
    if c = Separator then []
    else if c = dot then dot :: acc
    else extScan rest (c :: acc)

/-- The function `filepath.Ext`: the suffix beginning at the final dot of the
final element of the path, empty if there is no dot. -/
def Ext (path : GoString) : GoString := extScan path.reverse []

/-- The function `filepath.Base`: the last element of the path, trailing
separators removed first. -/
def Base (path : GoString) : GoString :=
  if path = [] then [dot]
  else
    let path := (path.reverse.dropWhile (fun c => decide (c = Separator))).reverse
    let path := (path.reverse.takeWhile (fun c => !decide (c = Separator))).reverse
    if path = [] then [Separator] else path

/-- The function `strings.TrimSuffix`. -/
def TrimSuffix (s suffix : GoString) : GoString :=
  if suffix.isSuffixOf s then s.take (s.length - suffix.length) else s

/-- The function `strings.Split` at a one-byte separator. -/
def Split : GoString → Nat → List GoString
  | [], _ => [[]]
  | c :: cs, sep =>
    if c = sep then [] :: Split cs sep
    else
      match Split cs sep with
      | [] => [[c]]
      | p :: ps => (c :: p) :: ps

/-- The function `strings.ReplaceAll` for a one-byte `old`. -/
def ReplaceAll (s : GoString) (old : Nat) (new : GoString) : GoString :=
  s.flatMap (fun c => if c = old then new else [c])

/-- An error value. `external` is an error that the operating system or the
spreadsheet library reported; the other two are built by `fmt.Errorf`, without
and with a wrapped cause (`%w`), from a format text and its string
arguments. -/
inductive GoError where
  | external (code : Nat)
  | errorf (format : String) (args : List GoString)
  | wrapf (format : String) (args : List GoString) (cause : GoError)
deriving DecidableEq

/-- Equality of results `(value, error)` can be decided. -/
instance instDecidableEqExcept {ε α : Type} [DecidableEq ε] [DecidableEq α] :
    DecidableEq (Except ε α)
  | .ok a, .ok b => if h : a = b then isTrue (by rw [h]) else isFalse (by intro e; cases e; exact h rfl)
  | .error a, .error b =>
    if h : a = b then isTrue (by rw [h]) else isFalse (by intro e; cases e; exact h rfl)
  | .ok _, .error _ => isFalse (by intro e; cases e)
  | .error _, .ok _ => isFalse (by intro e; cases e)

/-- The library functions whose result the embedding takes as given:
`strings.ToLower` (Unicode case tables) and `filepath.Rel`. -/
structure GoStd where
  ToLower : GoString → GoString
  Rel : GoString → GoString → Except GoError GoString

/-! ## The count table -/

/-- The `map[string]int` that tracks how often a sheet name was handed out. -/
abbrev CountTable := GoString → Option Int

/-- The table `make(map[string]int)`. -/
def CountTable.empty : CountTable := fun _ => none

/-- The assignment `m[k] = v`. -/
def CountTable.set (m : CountTable) (k : GoString) (v : Int) : CountTable :=
  fun k2 => if k2 = k then some v else m k2

/-! ## Interfaces and the merger -/

/-- What the program reads of an `fs.FileInfo`: the base name. -/
structure FileInfo where
  Name : GoString

/-- The interface `FileFilter`. -/
structure FileFilter where
  ShouldInclude : GoString → FileInfo → Bool

/-- The interface `SheetNamer`. -/
structure SheetNamer where
  GetSheetName : GoString → GoString → GoString

/-- The struct `ExcelMerger`; `filter` may be the nil interface. -/
structure ExcelMerger where
  sourceDir : GoString
  outputPath : GoString
  filter : Option FileFilter
  namer : SheetNamer
  maxSheetLen : Nat

/-- The constructor `NewExcelMerger`: the sheet-name limit is 31. -/
def NewExcelMerger (sourceDir outputPath : GoString) (filter : Option FileFilter)
    (namer : SheetNamer) : ExcelMerger :=
  { sourceDir := sourceDir, outputPath := outputPath, filter := filter, namer := namer,
    maxSheetLen := 31 }

/-! ## `getUniqueSheetName` -/

/-- The method `ExcelMerger.getUniqueSheetName`: returns the sheet name and the
count table after the call. -/
def getUniqueSheetName (em : ExcelMerger) (baseName originalSheetName : GoString)
    (sheetNameCount : CountTable) : GoString × CountTable :=
  let baseName := if baseName = [] then originalSheetName else baseName
  let baseName :=
    if baseName.length > em.maxSheetLen then baseName.take em.maxSheetLen else baseName
  match sheetNameCount baseName with
  | some count =>
    let count := wrapInt (count + 1)
    let sheetNameCount := sheetNameCount.set baseName count
    let suffix := underscore :: fmtInt count
    let maxLen : Int := (em.maxSheetLen : Int) - (suffix.length : Int)
    let maxLen : Int := if maxLen < 1 then 1 else maxLen
    let baseName :=
      if (baseName.length : Int) > maxLen then baseName.take maxLen.toNat else baseName
    (baseName ++ suffix, sheetNameCount)
  | none => (baseName, sheetNameCount.set baseName 0)

/-- A run of the uniquifier: the calls `(baseName, originalSheetName)` are made
one after the other against the same table; the names are returned in call
order together with the final table. -/
def uniquifyAll (em : ExcelMerger) : List (GoString × GoString) → CountTable →
    List GoString × CountTable
  | [], t => ([], t)
  | c :: cs, t =>
    let r := getUniqueSheetName em c.1 c.2 t
    let rs := uniquifyAll em cs r.2
    (r.1 :: rs.1, rs.2)

/-- The base name a call works with once an empty `baseName` has been replaced
by the original sheet name. -/
def effectiveBase (c : GoString × GoString) : GoString :=
  if c.1 = [] then c.2 else c.1

/-- The key under which a call looks the table up: the effective base cut to
31 bytes. -/
def tableKey (c : GoString × GoString) : GoString :=
  (effectiveBase c).take 31

/-- A merger built by `NewExcelMerger` with the nil filter and a namer that
returns the path; the uniquifier uses neither. -/
def plainMerger : ExcelMerger :=
  NewExcelMerger [] [] none { GetSheetName := fun p _ => p }

/-! ## Filters -/

/-- The test `ext == ".xlsx" || ext == ".xlsm" || ext == ".xltx" || ext == ".xltm"`. -/
def isExcelExt (ext : GoString) : Bool :=
  decide (ext = utf8 ".xlsx") || decide (ext = utf8 ".xlsm") ||
    decide (ext = utf8 ".xltx") || decide (ext = utf8 ".xltm")

/-- The method `DefaultFilter.ShouldInclude`. -/
def DefaultFilter.ShouldInclude (std : GoStd) (path : GoString) (_info : FileInfo) : Bool :=
  let ext := std.ToLower (Ext path)
  isExcelExt ext

/-- The struct `ExtensionFilter`. -/
structure ExtensionFilter where
  Extensions : List GoString

/-- The loop of `ExtensionFilter.ShouldInclude` over the allowed extensions. -/
def ExtensionFilter.scan (std : GoStd) (ext : GoString) : List GoString → Bool
  | [] => false
  | allowedExt :: more =>
    if ext = std.ToLower allowedExt then true else ExtensionFilter.scan std ext more

/-- The method `ExtensionFilter.ShouldInclude`. -/
def ExtensionFilter.ShouldInclude (std : GoStd) (f : ExtensionFilter) (path : GoString)
    (_info : FileInfo) : Bool :=
  let ext := std.ToLower (Ext path)
  ExtensionFilter.scan std ext f.Extensions

/-- The struct `CompositeFilter`. -/
structure CompositeFilter where
  Filters : List FileFilter
  UseAND : Bool

/-- The loop of the AND branch: the first child that rejects decides. -/
def CompositeFilter.scanAnd (path : GoString) (info : FileInfo) : List FileFilter → Bool
  | [] => true
  | filter :: more =>
    if !filter.ShouldInclude path info then false
    else CompositeFilter.scanAnd path info more

/-- The loop of the OR branch: the first child that accepts decides. -/
def CompositeFilter.scanOr (path : GoString) (info : FileInfo) : List FileFilter → Bool
  | [] => false
  | filter :: more =>
    if filter.ShouldInclude path info then true
    else CompositeFilter.scanOr path info more

/-- The method `CompositeFilter.ShouldInclude`. -/
def CompositeFilter.ShouldInclude (f : CompositeFilter) (path : GoString) (info : FileInfo) :
    Bool :=
  if f.Filters.length = 0 then true
  else if f.UseAND then CompositeFilter.scanAnd path info f.Filters
  else CompositeFilter.scanOr path info f.Filters

/-- A `DefaultFilter` seen through the interface. -/
def DefaultFilter.toFileFilter (std : GoStd) : FileFilter :=
  { ShouldInclude := DefaultFilter.ShouldInclude std }

/-- An `ExtensionFilter` seen through the interface. -/
def ExtensionFilter.toFileFilter (std : GoStd) (f : ExtensionFilter) : FileFilter :=
  { ShouldInclude := ExtensionFilter.ShouldInclude std f }

/-- A `CompositeFilter` seen through the interface. -/
def CompositeFilter.toFileFilter (f : CompositeFilter) : FileFilter :=
  { ShouldInclude := CompositeFilter.ShouldInclude f }

/-! ## Namers -/

/-- The expression `strings.TrimSuffix(filepath.Base(filePath), filepath.Ext(filePath))`. -/
def fileStem (filePath : GoString) : GoString :=
  TrimSuffix (Base filePath) (Ext filePath)

/-- The method `FirstLevelDirNamer.GetSheetName`. -/
def FirstLevelDirNamer.GetSheetName (std : GoStd) (filePath basePath : GoString) : GoString :=
  match std.Rel basePath filePath with
  | .error _ => fileStem filePath
  | .ok relPath =>
    let parts := Split relPath Separator
    if parts.length > 1 then parts.headD []
    else fileStem filePath

/-- The method `FileNameNamer.GetSheetName`. -/
def FileNameNamer.GetSheetName (filePath _basePath : GoString) : GoString :=
  fileStem filePath

/-- The struct `FullPathNamer`; the field is the joiner. -/
structure FullPathNamer where
  Separator : GoString

/-- The method `FullPathNamer.GetSheetName`. -/
def FullPathNamer.GetSheetName (std : GoStd) (n : FullPathNamer) (filePath basePath : GoString) :
    GoString :=
  match std.Rel basePath filePath with
  | .error _ => fileStem filePath
  | .ok relPath =>
    let sep := if n.Separator = [] then [underscore] else n.Separator
    let relPath := TrimSuffix relPath (Ext relPath)
    let relPath := ReplaceAll relPath MergeExcel.Separator sep
    relPath

/-- A `FirstLevelDirNamer` seen through the interface. -/
def FirstLevelDirNamer.toSheetNamer (std : GoStd) : SheetNamer :=
  { GetSheetName := FirstLevelDirNamer.GetSheetName std }

/-- A `FileNameNamer` seen through the interface. -/
def FileNameNamer.toSheetNamer : SheetNamer :=
  { GetSheetName := FileNameNamer.GetSheetName }

/-- A `FullPathNamer` seen through the interface. -/
def FullPathNamer.toSheetNamer (std : GoStd) (n : FullPathNamer) : SheetNamer :=
  { GetSheetName := FullPathNamer.GetSheetName std n }

/-! ## The world outside the program -/

/-- An `fs.DirEntry` as the walk callback uses it. -/
structure DirEntry where
  IsDir : Bool
  Info : Except GoError FileInfo

/-- One call of the walk callback by `filepath.WalkDir`: the path, the entry
and the error that the walk met at that path, if any. -/
structure WalkStep where
  path : GoString
  d : DirEntry
  err : Option GoError

/-- An `excelize.Style`, kept abstract. -/
structure Style where
  descr : Nat
deriving DecidableEq

/-- An `excelize.MergeCell` with its two corner references. -/
structure MergeCell where
  GetStartAxis : GoString
  GetEndAxis : GoString

/-- A source workbook opened by `excelize.OpenFile`: what its read methods
answer.  Column widths and row heights are `float64` in Go; they are only
compared with zero and handed on, and are held as rationals here. -/
structure SourceFile where
  GetSheetList : List GoString
  GetRows : GoString → Except GoError (List (List GoString))
  GetCellStyle : GoString → GoString → Except GoError Int
  GetStyle : Int → Except GoError (Option Style)
  GetColWidth : GoString → GoString → Except GoError Rat
  GetRowHeight : GoString → Nat → Except GoError Rat
  GetMergeCells : GoString → Except GoError (List MergeCell)

/-- A call with an effect, in the order the program makes it. -/
inductive Op where
  | NewFile
  | DeleteSheet (sheet : GoString)
  | OpenFile (path : GoString)
  | CloseSource (path : GoString)
  | NewSheet (sheet : GoString)
  | SetActiveSheet (index : Int)
  | SetCellValue (sheet cell value : GoString)
  | NewStyle (style : Style)
  | SetCellStyle (sheet hCell vCell : GoString) (styleID : Int)
  | SetColWidth (sheet startCol endCol : GoString) (width : Rat)
  | SetRowHeight (sheet : GoString) (row : Nat) (height : Rat)
  | MergeCell (sheet hCell vCell : GoString)
  | SaveAs (path : GoString)
  | CloseOutput
deriving DecidableEq

/-- The operating system and the spreadsheet library as the program meets
them.  The calls on the output workbook that can fail answer as a function of
the trace of calls made so far. -/
structure World where
  WalkDir : GoString → List WalkStep
  OpenFile : GoString → Except GoError SourceFile
  NewSheet : List Op → GoString → Except GoError Int
  NewStyle : List Op → Style → Int × Option GoError
  SaveAs : List Op → GoString → Option GoError
  CoordinatesToCellName : Nat → Nat → Except GoError GoString
  ColumnNumberToName : Nat → GoString

/-! ## `findExcelFiles` -/

/-- The callback that `findExcelFiles` hands to `filepath.WalkDir`; the slice
`excelFiles` it appends to is passed through. -/
def walkFn (std : GoStd) (em : ExcelMerger) (excelFiles : List GoString) (s : WalkStep) :
    List GoString × Option GoError :=
  match s.err with
  | some err => (excelFiles, some err)
  | none =>
    if s.d.IsDir then (excelFiles, none)
    else
      match s.d.Info with
      | .error err => (excelFiles, some err)
      | .ok info =>
        let rejected :=
          match em.filter with
          | some filter => !filter.ShouldInclude s.path info
          | none => false
        if rejected then (excelFiles, none)
        else
          let ext := std.ToLower (Ext s.path)
          if isExcelExt ext then (excelFiles ++ [s.path], none)
          else (excelFiles, none)

/-- The walk itself: the callback is run on every step until it returns an
error, which ends the walk and is returned. -/
def walkLoop (std : GoStd) (em : ExcelMerger) : List WalkStep → List GoString →
    List GoString × Option GoError
  | [], excelFiles => (excelFiles, none)
  | s :: rest, excelFiles =>
    match walkFn std em excelFiles s with
    | (excelFiles, some err) => (excelFiles, some err)
    | (excelFiles, none) => walkLoop std em rest excelFiles

/-- The method `ExcelMerger.findExcelFiles`. -/
def findExcelFiles (std : GoStd) (w : World) (em : ExcelMerger) :
    List GoString × Option GoError :=
  walkLoop std em (w.WalkDir em.sourceDir) []

/-! ## `copySheetWithFormat` -/

/-- The local `styleMap` of `copySheetWithFormat`. -/
abbrev StyleMap := Int → Option Int

/-- The body of the inner loop of `copySheetWithFormat` for the cell at
`(rowIdx, colIdx)`; the state is the trace and the style map. -/
def copyCell (w : World) (srcFile : SourceFile) (srcSheetName dstSheetName : GoString)
    (rowIdx colIdx : Nat) (cellValue : GoString) (st : List Op × StyleMap) :
    List Op × StyleMap :=
  match w.CoordinatesToCellName (colIdx + 1) (rowIdx + 1) with
  | .error _ => st
  | .ok cellName =>
    let trace := st.1 ++ [Op.SetCellValue dstSheetName cellName cellValue]
    match srcFile.GetCellStyle srcSheetName cellName with
    | .error _ => (trace, st.2)
    | .ok srcStyleID =>
      if srcStyleID = 0 then (trace, st.2)
      else
        let r : Int × List Op × StyleMap :=
          match st.2 srcStyleID with
          | some dstStyleID => (dstStyleID, trace, st.2)
          | none =>
            match srcFile.GetStyle srcStyleID with
            | .ok (some srcStyle) =>
              let created := w.NewStyle trace srcStyle
              let trace := trace ++ [Op.NewStyle srcStyle]
              match created.2 with
              | none =>
                (created.1, trace, fun k => if k = srcStyleID then some created.1 else st.2 k)
              | some _ => (created.1, trace, st.2)
            | _ => (0, trace, st.2)
        if r.1 ≠ 0 then
          (r.2.1 ++ [Op.SetCellStyle dstSheetName cellName cellName r.1], r.2.2)
        else (r.2.1, r.2.2)

/-- The inner loop `for colIdx, cellValue := range row`. -/
def copyRow (w : World) (srcFile : SourceFile) (srcSheetName dstSheetName : GoString)
    (rowIdx : Nat) : Nat → List GoString → List Op × StyleMap → List Op × StyleMap
  | _, [], st => st
  | colIdx, cellValue :: more, st =>
    copyRow w srcFile srcSheetName dstSheetName rowIdx (colIdx + 1) more
      (copyCell w srcFile srcSheetName dstSheetName rowIdx colIdx cellValue st)

/-- The outer loop `for rowIdx, row := range rows`. -/
def copyRows (w : World) (srcFile : SourceFile) (srcSheetName dstSheetName : GoString) :
    Nat → List (List GoString) → List Op × StyleMap → List Op × StyleMap
  | _, [], st => st
  | rowIdx, row :: more, st =>
    copyRows w srcFile srcSheetName dstSheetName (rowIdx + 1) more
      (copyRow w srcFile srcSheetName dstSheetName rowIdx 0 row st)

/-- The loop over the first hundred columns that copies the widths. -/
def copyColWidths (w : World) (srcFile : SourceFile) (srcSheetName dstSheetName : GoString) :
    List Nat → List Op → List Op
  | [], trace => trace
  | colIdx :: more, trace =>
    let colName := w.ColumnNumberToName (colIdx + 1)
    let trace :=
      match srcFile.GetColWidth srcSheetName colName with
      | .ok width =>
        if width > 0 then trace ++ [Op.SetColWidth dstSheetName colName colName width]
        else trace
      | .error _ => trace
    copyColWidths w srcFile srcSheetName dstSheetName more trace

/-- The loop over the rows read that copies the heights; `rowIdx` runs from 1. -/
def copyRowHeights (srcFile : SourceFile) (srcSheetName dstSheetName : GoString) :
    List Nat → List Op → List Op
  | [], trace => trace
  | rowIdx :: more, trace =>
    let trace :=
      match srcFile.GetRowHeight srcSheetName rowIdx with
      | .ok height =>
        if height > 0 then trace ++ [Op.SetRowHeight dstSheetName rowIdx height] else trace
      | .error _ => trace
    copyRowHeights srcFile srcSheetName dstSheetName more trace

/-- The method `ExcelMerger.copySheetWithFormat`: the error it returns, if
any, and the trace after it. -/
def copySheetWithFormat (w : World) (trace : List Op) (srcFile : SourceFile)
    (srcSheetName dstSheetName : GoString) : Option GoError × List Op :=
  match w.NewSheet trace dstSheetName with
  | .error err => (some err, trace ++ [Op.NewSheet dstSheetName])
  | .ok index =>
    let trace := trace ++ [Op.NewSheet dstSheetName, Op.SetActiveSheet index]
    match srcFile.GetRows srcSheetName with
    | .error err => (some err, trace)
    | .ok rows =>
      let st := copyRows w srcFile srcSheetName dstSheetName 0 rows (trace, fun _ => none)
      let trace := copyColWidths w srcFile srcSheetName dstSheetName (List.range 100) st.1
      let trace :=
        copyRowHeights srcFile srcSheetName dstSheetName
          ((List.range rows.length).map (fun i => i + 1)) trace
      let trace :=
        match srcFile.GetMergeCells srcSheetName with
        | .ok mergeCells =>
          trace ++ mergeCells.map
            (fun mergeCell => Op.MergeCell dstSheetName mergeCell.GetStartAxis mergeCell.GetEndAxis)
        | .error _ => trace
      (none, trace)

/-! ## `mergeExcelFile` and `Merge` -/

/-- The loop of `mergeExcelFile` over the sheets of one source workbook. -/
def mergeSheets (w : World) (em : ExcelMerger) (filePath : GoString) (sourceFile : SourceFile) :
    List GoString → List Op → CountTable → Option GoError × List Op × CountTable
  | [], trace, sheetNameCount => (none, trace, sheetNameCount)
  | sourceSheetName :: more, trace, sheetNameCount =>
    let baseSheetName := em.namer.GetSheetName filePath em.sourceDir
    let u := getUniqueSheetName em baseSheetName sourceSheetName sheetNameCount
    let c := copySheetWithFormat w trace sourceFile sourceSheetName u.1
    match c.1 with
    | some err => (some (GoError.wrapf "复制 sheet %s 失败: %w" [sourceSheetName] err), c.2, u.2)
    | none => mergeSheets w em filePath sourceFile more c.2 u.2

/-- The method `ExcelMerger.mergeExcelFile`; the deferred `Close` of the source
workbook is the last call on every path that opened it. -/
def mergeExcelFile (w : World) (em : ExcelMerger) (trace : List Op) (filePath : GoString)
    (sheetNameCount : CountTable) : Option GoError × List Op × CountTable :=
  let trace := trace ++ [Op.OpenFile filePath]
  match w.OpenFile filePath with
  | .error err => (some (GoError.wrapf "打开文件失败: %w" [] err), trace, sheetNameCount)
  | .ok sourceFile =>
    let r := mergeSheets w em filePath sourceFile sourceFile.GetSheetList trace sheetNameCount
    (r.1, r.2.1 ++ [Op.CloseSource filePath], r.2.2)

/-- The loop of `Merge` over the files found: an error of `mergeExcelFile` is
printed and the loop goes on. -/
def mergeFiles (w : World) (em : ExcelMerger) : List GoString → List Op → CountTable →
    List Op × CountTable
  | [], trace, sheetNameCount => (trace, sheetNameCount)
  | filePath :: more, trace, sheetNameCount =>
    let r := mergeExcelFile w em trace filePath sheetNameCount
    mergeFiles w em more r.2.1 r.2.2

/-- The method `ExcelMerger.Merge`: the error it returns, if any, and the
trace of the whole run; the deferred `Close` of the output workbook is the
last call on every path. -/
def Merge (std : GoStd) (w : World) (em : ExcelMerger) : Option GoError × List Op :=
  let trace := [Op.NewFile, Op.DeleteSheet (utf8 "Sheet1")]
  match findExcelFiles std w em with
  | (_, some err) =>
    (some (GoError.wrapf "查找 Excel 文件失败: %w" [] err), trace ++ [Op.CloseOutput])
  | (excelFiles, none) =>
    if excelFiles.length = 0 then
      (some (GoError.errorf "未找到符合条件的 Excel 文件" []), trace ++ [Op.CloseOutput])
    else
      let st := mergeFiles w em excelFiles trace CountTable.empty
      let trace := st.1 ++ [Op.SaveAs em.outputPath]
      match w.SaveAs st.1 em.outputPath with
      | some err =>
        (some (GoError.wrapf "保存输出文件失败: %w" [] err), trace ++ [Op.CloseOutput])
      | none => (none, trace ++ [Op.CloseOutput])

/-! ## Library functions written out for concrete runs

The definitions above take `strings.ToLower`, `filepath.Rel` and the
spreadsheet library as given.  To run them on concrete inputs, the functions
below follow the Go sources of these library functions on a Unix build. -/

/-- The function `strings.ToLower` on a string of ASCII bytes: `A`..`Z` move to
`a`..`z`; other bytes stay (Go maps non-ASCII text through the Unicode
tables, which no input used below contains). -/
def asciiToLower (s : GoString) : GoString :=
  s.map (fun c => if 65 ≤ c ∧ c ≤ 90 then c + 32 else c)

/-- One element of the path met by `filepath.Clean`; `stack` holds the
elements kept so far, the last one first. -/
def cleanPush (rooted : Bool) (stack : List GoString) (elem : GoString) : List GoString :=
  if elem = [] ∨ elem = [dot] then stack
  else if elem = [dot, dot] then
    match stack with
    | top :: rest =>
      if top ≠ [dot, dot] then rest
      else if rooted then stack else elem :: stack
    | [] => if rooted then stack else [elem]
  else elem :: stack

/-- The function `filepath.Clean`: empty and `.` elements are dropped, a `..`
removes the element before it (or is dropped at the root), and the empty
result is `.`. -/
def Clean (path : GoString) : GoString :=
  if path = [] then [dot]
  else
    let rooted := decide (path.head? = some Separator)
    let stack := (Split path Separator).foldl (cleanPush rooted) []
    let body := List.intercalate [Separator] stack.reverse
    if rooted then Separator :: body
    else if body = [] then [dot] else body

/-- The elements that the comparison loop of `filepath.Rel` steps through in a
cleaned path. -/
def relElems (p : GoString) : List GoString :=
  if p = [] then []
  else if p.getLast? = some Separator then (Split p Separator).dropLast
  else Split p Separator

/-- The comparison loop of `filepath.Rel`: what is left of both paths after
their common leading elements. -/
def dropCommon : List GoString → List GoString → List GoString × List GoString
  | b :: bs, t :: ts => if t = b then dropCommon bs ts else (b :: bs, t :: ts)
  | bs, ts => (bs, ts)

/-- The function `filepath.Rel` (lexical, Unix). -/
def filepathRel (basepath targpath : GoString) : Except GoError GoString :=
  let base := Clean basepath
  let targ := Clean targpath
  if targ = base then .ok [dot]
  else
    let base := if base = [dot] then [] else base
    let baseSlashed := decide (base.head? = some Separator)
    let targSlashed := decide (targ.head? = some Separator)
    if baseSlashed ≠ targSlashed then
      .error (GoError.errorf "Rel: cannot make %s relative to %s" [targpath, basepath])
    else
      let r := dropCommon (relElems base) (relElems targ)
      if r.1.head? = some [dot, dot] then
        .error (GoError.errorf "Rel: cannot make %s relative to %s" [targpath, basepath])
      else if r.1 ≠ [] then
        .ok (List.intercalate [Separator] (List.replicate r.1.length [dot, dot] ++ r.2))
      else .ok (List.intercalate [Separator] r.2)

/-- The standard library with `asciiToLower` and `filepathRel`. -/
def goStd : GoStd := { ToLower := asciiToLower, Rel := filepathRel }

/-- The loop of `excelize.ColumnNumberToName` that writes the letters from the
right. -/
def columnLetters : Nat → Nat → GoString → GoString
  | 0, _, acc => acc
  | fuel + 1, num, acc =>
    if num = 0 then acc
    else columnLetters fuel ((num - 1) / 26) (((num - 1) % 26 + 65) :: acc)

/-- The function `excelize.ColumnNumberToName`, the name being empty outside
`1..16384`. -/
def excelColumnNumberToName (num : Nat) : GoString :=
  if num < 1 ∨ num > 16384 then [] else columnLetters num num []

/-- The function `excelize.CoordinatesToCellName`: an error outside
`1..16384` columns and `1..1048576` rows. -/
def excelCoordinatesToCellName (col row : Nat) : Except GoError GoString :=
  if col < 1 ∨ row < 1 ∨ row > 1048576 ∨ col > 16384 then .error (GoError.external 1)
  else .ok (excelColumnNumberToName col ++ decimal row)

/-- A source workbook with one sheet `Sheet1` holding the given rows, without
styles, sizes or merged cells. -/
def plainSource (rows : List (List GoString)) : SourceFile :=
  { GetSheetList := [utf8 "Sheet1"]
    GetRows := fun _ => .ok rows
    GetCellStyle := fun _ _ => .ok 0
    GetStyle := fun _ => .ok none
    GetColWidth := fun _ _ => .ok 0
    GetRowHeight := fun _ _ => .ok 0
    GetMergeCells := fun _ => .ok [] }

/-- The walk step for a regular file visited without error. -/
def fileStep (path : GoString) (info : FileInfo) : WalkStep :=
  { path := path, d := { IsDir := false, Info := .ok info }, err := none }

/-- The walk step for a directory visited without error. -/
def dirStep (path : GoString) : WalkStep :=
  { path := path, d := { IsDir := true, Info := .ok { Name := Base path } }, err := none }

/-- The walk step for a path at which the walk met an error, here at a
directory that could not be read. -/
def failedStep (path : GoString) (err : GoError) : WalkStep :=
  { path := path, d := { IsDir := true, Info := .error err }, err := some err }

/-- A world for concrete runs: the walk visits `steps`; every workbook whose
path is not in `broken` opens as `plainSource rows`; saving answers `saveErr`. -/
def plainWorld (steps : List WalkStep) (broken : List GoString)
    (rows : List (List GoString)) (saveErr : Option GoError) : World :=
  { WalkDir := fun _ => steps
    OpenFile := fun p => if p ∈ broken then .error (GoError.external 2) else .ok (plainSource rows)
    NewSheet := fun trace _ => .ok (trace.length : Int)
    NewStyle := fun trace _ => ((trace.length : Int), none)
    SaveAs := fun _ _ => saveErr
    CoordinatesToCellName := excelCoordinatesToCellName
    ColumnNumberToName := excelColumnNumberToName }

/-- The merger that `main` builds: the default filter and the first-level
directory namer, here for the source directory `/data`. -/
def mainMerger : ExcelMerger :=
  NewExcelMerger (utf8 "/data") (utf8 "/out.xlsx") (some (DefaultFilter.toFileFilter goStd))
    (FirstLevelDirNamer.toSheetNamer goStd)

/-- A world with two workbooks under `/data`, the first of which cannot be
opened. -/
def brokenFirstWorld : World :=
  plainWorld
    [dirStep (utf8 "/data"), dirStep (utf8 "/data/2024"),
      fileStep (utf8 "/data/2024/a.xlsx") { Name := utf8 "a.xlsx" },
      dirStep (utf8 "/data/2025"),
      fileStep (utf8 "/data/2025/b.xlsx") { Name := utf8 "b.xlsx" }]
    [utf8 "/data/2024/a.xlsx"] [[utf8 "v"]] none

/-! ## Words of the specification -/

/-- Whether the merger's filter includes a file; the nil filter includes
every file. -/
def filterAccepts (em : ExcelMerger) (path : GoString) (info : FileInfo) : Bool :=
  match em.filter with
  | some filter => filter.ShouldInclude path info
  | none => true

/-- The non-directory entry that a walk step visits, with its file info; none
for a directory and for an entry whose info cannot be read. -/
def visitedFile (s : WalkStep) : Option (GoString × FileInfo) :=
  if s.d.IsDir then none
  else
    match s.d.Info with
    | .ok info => some (s.path, info)
    | .error _ => none

/-- The cells of a row grid in row-major order, each with its 1-based row and
column and its value. -/
def gridCells (rows : List (List GoString)) : List (Nat × Nat × GoString) :=
  rows.enum.flatMap (fun r => r.2.enum.map (fun c => (r.1 + 1, c.1 + 1, c.2)))

/-- The number of non-empty cells of a row grid. -/
def nonEmptyCells (rows : List (List GoString)) : Nat :=
  ((gridCells rows).filter (fun c => decide (c.2.2 ≠ []))).length

/-- The value writes `(sheet, cell, value)` among the calls of a trace. -/
def cellWrites (trace : List Op) : List (GoString × GoString × GoString) :=
  trace.filterMap (fun op =>
    match op with
    | Op.SetCellValue sheet cell value => some (sheet, cell, value)
    | _ => none)

/-- The value write that the copy makes for a grid cell `(row, column, value)`
into the sheet `dstSheetName`, none if the coordinates have no cell name. -/
def cellWrite (w : World) (dstSheetName : GoString) (cell : Nat × Nat × GoString) :
    Option (GoString × GoString × GoString) :=
  match w.CoordinatesToCellName cell.2.1 cell.1 with
  | .ok cellName => some (dstSheetName, cellName, cell.2.2)
  | .error _ => none

/-- A relative path written from its directory segments and its last
segment. -/
def joinPath (dirs : List GoString) (last : GoString) : GoString :=
  dirs.flatMap (fun d => d ++ [Separator]) ++ last

/-- A file name written from its stem and its extension, if it has one. -/
def fileName (stem : GoString) (ext : Option GoString) : GoString :=
  match ext with
  | some e => stem ++ dot :: e
  | none => stem

/-- The paths passed to `excelize.OpenFile`, in call order. -/
def openCalls (trace : List Op) : List GoString :=
  trace.filterMap (fun op =>
    match op with
    | Op.OpenFile path => some path
    | _ => none)

/-- Whether a call is `SaveAs`. -/
def Op.isSaveAs : Op → Bool
  | Op.SaveAs _ => true
  | _ => false

/-- What one call of `getUniqueSheetName` stores under its key: 0 for a key
that is new, the wrapped successor of the stored count otherwise. -/
def countStep : Option Int → Int
  | none => 0
  | some count => wrapInt (count + 1)

/-- The entry of a key after `n` more calls that look it up. -/
def bump : Nat → Option Int → Option Int
  | 0, v => v
  | n + 1, v => bump n (some (countStep v))

/-! ## The uniquifier -/

theorem wrapInt_of_range (x : Int) (h0 : 0 ≤ x) (h1 : x < 9223372036854775808) :
    wrapInt x = x := by
  unfold wrapInt
  omega

theorem decimal_length_le (n : Nat) (h : n < 10 ^ 19) : (decimal n).length ≤ 19 := by
  have h1 := Nat.repr_length n 19 (by decide) h
  simpa [decimal, Nat.repr, List.asString] using h1

theorem take_limit (l : GoString) :
    (if l.length > 31 then l.take 31 else l) = l.take 31 := by
  split
  · rfl
  · rw [List.take_of_length_le (by omega)]

theorem getUniqueSheetName_table (sourceDir outputPath : GoString) (filter : Option FileFilter)
    (namer : SheetNamer) (b o : GoString) (t : CountTable) :
    (getUniqueSheetName (NewExcelMerger sourceDir outputPath filter namer) b o t).2 =
      t.set (tableKey (b, o)) (countStep (t (tableKey (b, o)))) := by
  simp only [getUniqueSheetName, NewExcelMerger, tableKey, effectiveBase, take_limit]
  cases h : t (List.take 31 (if b = [] then o else b)) <;> simp [countStep]

theorem uniquifyAll_table (sourceDir outputPath : GoString) (filter : Option FileFilter)
    (namer : SheetNamer) (calls : List (GoString × GoString)) (t : CountTable) (k : GoString) :
    (uniquifyAll (NewExcelMerger sourceDir outputPath filter namer) calls t).2 k =
      bump (calls.filter (fun c => decide (tableKey c = k))).length (t k) := by
  induction calls generalizing t with
  | nil => simp [uniquifyAll, bump]
  | cons c cs ih =>
    simp only [uniquifyAll]
    rw [ih, getUniqueSheetName_table]
    by_cases hk : tableKey c = k
    · simp [List.filter_cons, hk, bump, CountTable.set]
    · have hk2 : ¬ k = tableKey c := fun e => hk e.symm
      simp [List.filter_cons, hk, hk2, CountTable.set]

theorem bump_some (n : Nat) (c : Int) (h0 : 0 ≤ c) (h1 : c + n < 9223372036854775808) :
    bump n (some c) = some (c + n) := by
  induction n generalizing c with
  | zero => simp [bump]
  | succ n ih =>
    have hw : wrapInt (c + 1) = c + 1 := wrapInt_of_range _ (by omega) (by push_cast at h1; omega)
    simp only [bump, countStep, hw]
    rw [ih (c + 1) (by omega) (by push_cast at h1 ⊢; omega)]
    push_cast
    congr 1
    omega

theorem bump_none (n : Nat) (h1 : n < 9223372036854775808) :
    bump (n + 1) none = some (n : Int) := by
  simp only [bump, countStep]
  rw [bump_some n 0 (by omega) (by omega)]
  simp

theorem getUniqueSheetName_hit (sourceDir outputPath : GoString) (filter : Option FileFilter)
    (namer : SheetNamer) (c : GoString × GoString) (t : CountTable) (n : Nat)
    (ht : t (tableKey c) = some (n : Int)) (hn : n + 1 < 9223372036854775808) :
    (getUniqueSheetName (NewExcelMerger sourceDir outputPath filter namer) c.1 c.2 t).1 =
      (tableKey c).take (max 1 (31 - (underscore :: decimal (n + 1)).length)) ++
        underscore :: decimal (n + 1) := by
  have hw : wrapInt ((n : Int) + 1) = ((n + 1 : Nat) : Int) := by
    rw [wrapInt_of_range _ (by omega) (by omega)]; omega
  have hlen : (decimal (n + 1)).length ≤ 19 := decimal_length_le _ (by omega)
  simp only [tableKey, effectiveBase] at ht
  simp only [getUniqueSheetName, NewExcelMerger, tableKey, effectiveBase, take_limit, ht, hw]
  have hf : fmtInt ((n + 1 : Nat) : Int) = decimal (n + 1) := rfl
  rw [hf]
  simp only [List.length_cons]
  refine congrArg (fun l => l ++ underscore :: decimal (n + 1)) ?_
  generalize List.take 31 (if c.1 = [] then c.2 else c.1) = key
  generalize (decimal (n + 1)).length = L at hlen
  have h1 : ¬ ((31 : Nat) : Int) - ((L + 1 : Nat) : Int) < 1 := by omega
  have h2 : (((31 : Nat) : Int) - ((L + 1 : Nat) : Int)).toNat = max 1 (31 - (L + 1)) := by
    omega
  rw [if_neg h1, h2]
  by_cases hgt : ((key.length : Nat) : Int) > ((31 : Nat) : Int) - ((L + 1 : Nat) : Int)
  · rw [if_pos hgt]
  · rw [if_neg hgt, List.take_of_length_le (by omega)]

/-- The bytes that the call after `N` earlier calls with the same key returns:
the key cut to make room for the suffix, then `_` and the count. -/
theorem uniquifyAll_then_hit (sourceDir outputPath : GoString)
    (filter : Option FileFilter) (namer : SheetNamer) (b : GoString) (N : Nat)
    (pre : List (GoString × GoString)) (c : GoString × GoString)
    (hN1 : 1 ≤ N) (hN : N < 2 ^ 63) (hc : tableKey c = b.take 31)
    (hpre : (pre.filter (fun c2 => decide (tableKey c2 = b.take 31))).length = N) :
    (getUniqueSheetName (NewExcelMerger sourceDir outputPath filter namer) c.1 c.2
        (uniquifyAll (NewExcelMerger sourceDir outputPath filter namer) pre
          CountTable.empty).2).1 =
      b.take (min b.length (max 1 (31 - (underscore :: decimal N).length))) ++
        underscore :: decimal N ∧
    (getUniqueSheetName (NewExcelMerger sourceDir outputPath filter namer) c.1 c.2
        (uniquifyAll (NewExcelMerger sourceDir outputPath filter namer) pre
          CountTable.empty).2).1.length ≤ 31 := by
  obtain ⟨n, rfl⟩ : ∃ n, N = n + 1 := ⟨N - 1, by omega⟩
  have hn : n + 1 < 9223372036854775808 := by
    have : (2 : Nat) ^ 63 = 9223372036854775808 := by norm_num
    omega
  have ht : (uniquifyAll (NewExcelMerger sourceDir outputPath filter namer) pre
      CountTable.empty).2 (tableKey c) = some (n : Int) := by
    rw [uniquifyAll_table, hc, hpre]
    exact bump_none n (by omega)
  have hlen : (decimal (n + 1)).length ≤ 19 := decimal_length_le _ (by omega)
  rw [getUniqueSheetName_hit sourceDir outputPath filter namer c _ n ht hn, hc]
  constructor
  · congr 1
    rw [List.take_take]
    simp only [List.length_cons]
    by_cases hb : b.length ≤ max 1 (31 - ((decimal (n + 1)).length + 1))
    · rw [List.take_of_length_le (by omega), List.take_of_length_le (by omega)]
    · congr 1
      omega
  · simp only [List.length_append, List.length_take, List.length_cons]
    omega

theorem encode_ascii (ch : Char) (h : ch.toNat < 128) :
    (String.utf8EncodeChar ch).map UInt8.toNat = [ch.toNat] := by
  have hv : ch.val.toNat = ch.toNat := rfl
  have h1 : ch.val ≤ 0x7f := by
    rw [UInt32.le_def]
    show ch.val.toNat ≤ 127
    omega
  simp only [String.utf8EncodeChar, h1, if_true, List.map_cons, List.map_nil]
  congr 1
  show ch.val.toNat % 256 = ch.toNat
  omega

theorem utf8Chars_ascii (cs : List Char) (h : ∀ ch ∈ cs, ch.toNat < 128) :
    utf8Chars cs = cs.map Char.toNat := by
  induction cs with
  | nil => rfl
  | cons ch rest ih =>
    have h1 := encode_ascii ch (h ch (List.mem_cons_self _ _))
    have h2 := ih (fun x hx => h x (List.mem_cons_of_mem _ hx))
    simp only [utf8Chars, List.flatMap_cons, List.map_cons] at h2 ⊢
    rw [h1, h2]
    rfl

theorem length_le_utf8Chars (cs : List Char) : cs.length ≤ (utf8Chars cs).length := by
  induction cs with
  | nil => simp [utf8Chars]
  | cons ch rest ih =>
    have hpos : 0 < ch.utf8Size := Char.utf8Size_pos ch
    simp only [utf8Chars, List.flatMap_cons, List.length_append, List.length_map,
      String.length_utf8EncodeChar, List.length_cons] at ih ⊢
    omega

theorem take_utf8Chars (cs : List Char) (m : Nat)
    (h : (∀ ch ∈ cs, ch.toNat < 128) ∨ (utf8Chars cs).length ≤ m) :
    (utf8Chars cs).take (min (utf8Chars cs).length m) = utf8Chars (cs.take (min cs.length m)) := by
  rcases h with h | h
  · have hsub : ∀ ch ∈ cs.take (min cs.length m), ch.toNat < 128 :=
      fun ch hch => h ch (List.mem_of_mem_take hch)
    rw [utf8Chars_ascii cs h, utf8Chars_ascii _ hsub, List.length_map, List.map_take]
  · have hlen := length_le_utf8Chars cs
    rw [Nat.min_eq_left h, Nat.min_eq_left (by omega), List.take_length, List.take_length]

/-- C2 (amended): let the name `b` be the text `cs`, made of single-byte
(ASCII) characters, or short enough that the suffix needs no cut of it.  In a
run of a merger built by `NewExcelMerger` that starts from the empty table, let
a call look up the key of `b` (its effective base cut to 31 bytes is `b` cut to
31 bytes) after exactly `N` earlier calls with that key, `1 ≤ N < 2^63`.  Then
it returns `p ++ "_" ++ decimal N`, where `p` is the first
`min (len cs) (max 1 (31 - len ("_" ++ decimal N)))` characters of `cs`, and
the name is at most 31 bytes long. -/
theorem getUniqueSheetName_nth_reuse (sourceDir outputPath : GoString)
    (filter : Option FileFilter) (namer : SheetNamer) (cs : List Char) (N : Nat)
    (pre : List (GoString × GoString)) (c : GoString × GoString)
    (hN1 : 1 ≤ N) (hN : N < 2 ^ 63)
    (hchars : (∀ ch ∈ cs, ch.toNat < 128) ∨
      (utf8Chars cs).length ≤ max 1 (31 - (underscore :: decimal N).length))
    (hc : tableKey c = (utf8Chars cs).take 31)
    (hpre : (pre.filter
      (fun c2 => decide (tableKey c2 = (utf8Chars cs).take 31))).length = N) :
    (getUniqueSheetName (NewExcelMerger sourceDir outputPath filter namer) c.1 c.2
        (uniquifyAll (NewExcelMerger sourceDir outputPath filter namer) pre
          CountTable.empty).2).1 =
      utf8Chars (cs.take (min cs.length (max 1 (31 - (underscore :: decimal N).length)))) ++
        underscore :: decimal N ∧
    (getUniqueSheetName (NewExcelMerger sourceDir outputPath filter namer) c.1 c.2
        (uniquifyAll (NewExcelMerger sourceDir outputPath filter namer) pre
          CountTable.empty).2).1.length ≤ 31 := by
  have hb := uniquifyAll_then_hit sourceDir outputPath filter namer (utf8Chars cs) N pre c
    hN1 hN hc hpre
  refine ⟨?_, hb.2⟩
  rw [hb.1, take_utf8Chars cs _ hchars]

theorem getUniqueSheetName_nth_reuse_witness :
    (1 ≤ 2 ∧ 2 < 2 ^ 63 ∧ (∀ ch ∈ "report".toList, ch.toNat < 128) ∧
      tableKey (utf8 "report", []) = (utf8Chars "report".toList).take 31 ∧
      (([(utf8 "report", []), (utf8 "other", []), ([], utf8 "report")] :
          List (GoString × GoString)).filter
        (fun c2 => decide (tableKey c2 = (utf8Chars "report".toList).take 31))).length = 2 ∧
      (getUniqueSheetName plainMerger (utf8 "report") []
          (uniquifyAll plainMerger [(utf8 "report", []), (utf8 "other", []), ([], utf8 "report")]
            CountTable.empty).2).1 = utf8 "report_2") ∧
    ((utf8Chars "数据".toList).length ≤ max 1 (31 - (underscore :: decimal 1).length) ∧
      (getUniqueSheetName plainMerger (utf8 "数据") []
          (uniquifyAll plainMerger [(utf8 "数据", [])] CountTable.empty).2).1 = utf8 "数据_1") :=
  ⟨⟨by decide, by norm_num, by decide, by decide, by decide,
    (getUniqueSheetName_nth_reuse [] [] none { GetSheetName := fun p _ => p } "report".toList 2
      [(utf8 "report", []), (utf8 "other", []), ([], utf8 "report")] (utf8 "report", [])
      (by decide) (by norm_num) (Or.inl (by decide)) (by decide) (by decide)).1.trans
      (by decide)⟩,
    ⟨by decide,
    (getUniqueSheetName_nth_reuse [] [] none { GetSheetName := fun p _ => p } "数据".toList 1
      [(utf8 "数据", [])] (utf8 "数据", [])
      (by decide) (by norm_num) (Or.inr (by decide)) (by decide) (by decide)).1.trans
      (by decide)⟩⟩

/-- C2 as stated fails: counting the calls whose effective base is `b` itself,
the first reuse of a 32-byte name `b` is answered with the suffix `_2` when
another name with the same first 31 bytes was used before. -/
theorem nth_reuse_by_effective_base_fails :
    ¬ ∀ (b : GoString) (N : Nat) (pre : List (GoString × GoString)) (c : GoString × GoString),
      1 ≤ N → effectiveBase c = b →
      (pre.filter (fun c2 => decide (effectiveBase c2 = b))).length = N →
      (getUniqueSheetName plainMerger c.1 c.2
          (uniquifyAll plainMerger pre CountTable.empty).2).1 =
        b.take (min b.length (max 1 (31 - (underscore :: decimal N).length))) ++
          underscore :: decimal N := by
  intro h
  have h1 := h (List.replicate 31 120 ++ [65]) 1
    [(List.replicate 31 120 ++ [66], []), (List.replicate 31 120 ++ [65], [])]
    (List.replicate 31 120 ++ [65], []) (by decide) (by decide) (by decide)
  revert h1
  decide

/-- C1 fails on the code: the directories `a` (two sheets) and `a_1` (one
sheet) give the calls `a`, `a`, `a_1`, and the second and third call both
return `a_1`. -/
theorem uniquifyAll_returns_duplicate :
    (uniquifyAll plainMerger [(utf8 "a", []), (utf8 "a", []), (utf8 "a_1", [])]
        CountTable.empty).1 = [utf8 "a", utf8 "a_1", utf8 "a_1"] ∧
    ¬ (uniquifyAll plainMerger [(utf8 "a", []), (utf8 "a", []), (utf8 "a_1", [])]
        CountTable.empty).1.Nodup := by
  decide

/-- C3 fails on the code: a name of 11 CJK characters (33 bytes) that the
table does not hold is cut to 31 bytes, in the middle of its last character,
and the table is given the cut name, not the name. -/
theorem getUniqueSheetName_cuts_cjk_name :
    ("数数数数数数数数数数数".length = 11) ∧
    CountTable.empty (utf8 "数数数数数数数数数数数") = none ∧
    (getUniqueSheetName plainMerger (utf8 "数数数数数数数数数数数") [] CountTable.empty).1 =
      utf8 "数数数数数数数数数数" ++ [230] ∧
    (getUniqueSheetName plainMerger (utf8 "数数数数数数数数数数数") [] CountTable.empty).1 ≠
      utf8 "数数数数数数数数数数数" ∧
    (getUniqueSheetName plainMerger (utf8 "数数数数数数数数数数数") [] CountTable.empty).2
      (utf8 "数数数数数数数数数数数") = none := by
  decide

/-- The byte slicing of C3 also meets reused names: the second call with a
name of 10 CJK characters (30 bytes) cuts it to 29 bytes, inside its last
character, before the suffix `_1`. -/
theorem getUniqueSheetName_cuts_cjk_reuse :
    (uniquifyAll plainMerger [(utf8 "数数数数数数数数数数", []), (utf8 "数数数数数数数数数数", [])]
        CountTable.empty).1 =
      [utf8 "数数数数数数数数数数", utf8 "数数数数数数数数数" ++ [230, 149] ++ utf8 "_1"] := by
  decide

/-- A name of at most 31 bytes that the table does not hold is returned as it
is and stored with count 0. -/
theorem getUniqueSheetName_fresh (sourceDir outputPath : GoString) (filter : Option FileFilter)
    (namer : SheetNamer) (b o : GoString) (t : CountTable) (hb : b ≠ []) (hlen : b.length ≤ 31)
    (ht : t b = none) :
    (getUniqueSheetName (NewExcelMerger sourceDir outputPath filter namer) b o t).1 = b ∧
    (getUniqueSheetName (NewExcelMerger sourceDir outputPath filter namer) b o t).2 b =
      some 0 := by
  have hk : List.take 31 b = b := List.take_of_length_le hlen
  simp [getUniqueSheetName, NewExcelMerger, take_limit, hb, hk, ht, CountTable.set]

/-- The successor of the largest `int` is the smallest one. -/
theorem wrapInt_max : wrapInt (9223372036854775807 + 1) = -9223372036854775808 := by
  unfold wrapInt
  norm_num

/-- The range of `int` bounds the count: after `2^63` calls with the name `a`
the stored count is the largest `int`, and the next call wraps it and returns
`a_-9223372036854775808`. -/
theorem getUniqueSheetName_count_wraps (n : Nat) (hn : n + 1 = 2 ^ 63) :
    (getUniqueSheetName plainMerger (utf8 "a") []
        (uniquifyAll plainMerger (List.replicate (n + 1) (utf8 "a", [])) CountTable.empty).2).1 =
      utf8 "a_-9223372036854775808" := by
  have hn2 : n = 9223372036854775807 := by
    have : (2 : Nat) ^ 63 = 9223372036854775808 := by norm_num
    omega
  have hk : tableKey (utf8 "a", []) = utf8 "a" := by decide
  have ht : (uniquifyAll plainMerger (List.replicate (n + 1) (utf8 "a", []))
      CountTable.empty).2 (utf8 "a") = some (n : Int) := by
    unfold plainMerger
    rw [uniquifyAll_table]
    have hf : ((List.replicate (n + 1) ((utf8 "a", []) : GoString × GoString)).filter
        (fun c => decide (tableKey c = utf8 "a"))).length = n + 1 := by
      rw [List.filter_replicate]
      simp [hk]
    rw [hf]
    exact bump_none n (by omega)
  have hkey : (if (if utf8 "a" = [] then [] else utf8 "a").length > 31 then
      (if utf8 "a" = [] then [] else utf8 "a").take 31
      else (if utf8 "a" = [] then ([] : GoString) else utf8 "a")) = utf8 "a" := by decide
  have hw : wrapInt ((n : Int) + 1) = -9223372036854775808 := by
    rw [hn2]
    exact wrapInt_max
  generalize (uniquifyAll plainMerger (List.replicate (n + 1) (utf8 "a", []))
    CountTable.empty).2 = t at ht
  simp only [getUniqueSheetName, plainMerger, NewExcelMerger, hkey, ht, hw]
  decide

/-! ## Filters and the walk -/

theorem scanAnd_eq_true (path : GoString) (info : FileInfo) (l : List FileFilter) :
    CompositeFilter.scanAnd path info l = true ↔
      ∀ g ∈ l, g.ShouldInclude path info = true := by
  induction l with
  | nil => simp [CompositeFilter.scanAnd]
  | cons g gs ih =>
    cases hg : g.ShouldInclude path info <;> simp [CompositeFilter.scanAnd, hg, ih]

theorem scanOr_eq_true (path : GoString) (info : FileInfo) (l : List FileFilter) :
    CompositeFilter.scanOr path info l = true ↔
      ∃ g ∈ l, g.ShouldInclude path info = true := by
  induction l with
  | nil => simp [CompositeFilter.scanOr]
  | cons g gs ih =>
    cases hg : g.ShouldInclude path info <;> simp [CompositeFilter.scanOr, hg, ih]

/-- C5: a `CompositeFilter` with `UseAND = true` over a non-empty list of
children includes a file iff every child includes it; with `UseAND = false`
over a non-empty list iff at least one child includes it; over the empty list
it includes every file in both modes. -/
theorem CompositeFilter_ShouldInclude_spec (f : FileFilter) (fs : List FileFilter)
    (path : GoString) (info : FileInfo) :
    (CompositeFilter.ShouldInclude { Filters := f :: fs, UseAND := true } path info = true ↔
      ∀ g ∈ f :: fs, g.ShouldInclude path info = true) ∧
    (CompositeFilter.ShouldInclude { Filters := f :: fs, UseAND := false } path info = true ↔
      ∃ g ∈ f :: fs, g.ShouldInclude path info = true) ∧
    (∀ useAND : Bool,
      CompositeFilter.ShouldInclude { Filters := [], UseAND := useAND } path info = true) := by
  refine ⟨?_, ?_, ?_⟩
  · rw [← scanAnd_eq_true]
    simp [CompositeFilter.ShouldInclude]
  · rw [← scanOr_eq_true]
    simp [CompositeFilter.ShouldInclude]
  · intro useAND
    simp [CompositeFilter.ShouldInclude]

theorem walkFn_visit (std : GoStd) (em : ExcelMerger) (acc : List GoString) (s : WalkStep)
    (herr : s.err = none) (hinfo : s.d.IsDir = false → ∃ info, s.d.Info = .ok info) :
    walkFn std em acc s =
      (acc ++ (((visitedFile s).toList.filter (fun e =>
        filterAccepts em e.1 e.2 && isExcelExt (std.ToLower (Ext e.1)))).map Prod.fst), none) := by
  unfold walkFn visitedFile filterAccepts
  rw [herr]
  cases hdir : s.d.IsDir with
  | true => simp
  | false =>
    obtain ⟨info, hi⟩ := hinfo hdir
    simp only [hi]
    cases hf : em.filter with
    | none => cases hx : isExcelExt (std.ToLower (Ext s.path)) <;> simp [hx]
    | some g =>
      cases hg : g.ShouldInclude s.path info <;>
        cases hx : isExcelExt (std.ToLower (Ext s.path)) <;> simp [hg, hx]

theorem walkLoop_visits (std : GoStd) (em : ExcelMerger) (steps : List WalkStep)
    (acc : List GoString)
    (hok : ∀ s ∈ steps, s.err = none ∧ (s.d.IsDir = false → ∃ info, s.d.Info = .ok info)) :
    walkLoop std em steps acc =
      (acc ++ ((steps.filterMap visitedFile).filter (fun e =>
        filterAccepts em e.1 e.2 && isExcelExt (std.ToLower (Ext e.1)))).map Prod.fst, none) := by
  induction steps generalizing acc with
  | nil => simp [walkLoop]
  | cons s rest ih =>
    obtain ⟨herr, hinfo⟩ := hok s (List.mem_cons_self _ _)
    simp only [walkLoop, walkFn_visit std em acc s herr hinfo]
    rw [ih _ (fun x hx => hok x (List.mem_cons_of_mem _ hx))]
    cases hv : visitedFile s <;> simp [List.filterMap_cons, hv, List.filter_cons]
    split <;> simp

/-- C4 (amended): when the walk meets no error, `findExcelFiles` returns, in
visit order, exactly the paths of the non-directory entries that the filter
includes (every entry when the filter is nil) and whose lower-cased extension
is one of `.xlsx`, `.xlsm`, `.xltx`, `.xltm`; the error is nil. -/
theorem findExcelFiles_files (std : GoStd) (w : World) (em : ExcelMerger)
    (hok : ∀ s ∈ w.WalkDir em.sourceDir,
      s.err = none ∧ (s.d.IsDir = false → ∃ info, s.d.Info = .ok info)) :
    findExcelFiles std w em =
      ((((w.WalkDir em.sourceDir).filterMap visitedFile).filter (fun e =>
        filterAccepts em e.1 e.2 && isExcelExt (std.ToLower (Ext e.1)))).map Prod.fst, none) := by
  unfold findExcelFiles
  rw [walkLoop_visits std em _ [] hok]
  simp

theorem findExcelFiles_files_witness :
    (∀ s ∈ (plainWorld [dirStep (utf8 "/data"),
          fileStep (utf8 "/data/a.XLSX") { Name := utf8 "a.XLSX" },
          fileStep (utf8 "/data/b.txt") { Name := utf8 "b.txt" }] [] [] none).WalkDir
        (NewExcelMerger (utf8 "/data") (utf8 "/out.xlsx") none
          FileNameNamer.toSheetNamer).sourceDir,
      s.err = none ∧ (s.d.IsDir = false → ∃ info, s.d.Info = .ok info)) ∧
    findExcelFiles goStd
        (plainWorld [dirStep (utf8 "/data"),
          fileStep (utf8 "/data/a.XLSX") { Name := utf8 "a.XLSX" },
          fileStep (utf8 "/data/b.txt") { Name := utf8 "b.txt" }] [] [] none)
        (NewExcelMerger (utf8 "/data") (utf8 "/out.xlsx") none FileNameNamer.toSheetNamer) =
      ([utf8 "/data/a.XLSX"], none) :=
  ⟨by simp [plainWorld, dirStep, fileStep],
    (findExcelFiles_files goStd _ _ (by simp [plainWorld, dirStep, fileStep])).trans
      (by decide)⟩

/-- C4 as stated fails: an `ExtensionFilter` with the allow-list `[".xls"]`
includes `/data/a.xls`, and `findExcelFiles` does not return it. -/
theorem findExcelFiles_not_filter_only :
    ¬ ∀ (std : GoStd) (w : World) (em : ExcelMerger),
      (∀ s ∈ w.WalkDir em.sourceDir,
        s.err = none ∧ (s.d.IsDir = false → ∃ info, s.d.Info = .ok info)) →
      findExcelFiles std w em =
        ((((w.WalkDir em.sourceDir).filterMap visitedFile).filter
          (fun e => filterAccepts em e.1 e.2)).map Prod.fst, none) := by
  intro h
  have h1 := h goStd
    (plainWorld [dirStep (utf8 "/data"),
      fileStep (utf8 "/data/a.xls") { Name := utf8 "a.xls" }] [] [] none)
    (NewExcelMerger (utf8 "/data") (utf8 "/out.xlsx")
      (some (ExtensionFilter.toFileFilter goStd { Extensions := [utf8 ".xls"] }))
      FileNameNamer.toSheetNamer)
    (by simp [plainWorld, dirStep, fileStep])
  revert h1
  decide

/-! ## The sheet copy -/

theorem cellWrites_append (a b : List Op) : cellWrites (a ++ b) = cellWrites a ++ cellWrites b := by
  simp [cellWrites, List.filterMap_append]

theorem openCalls_append (a b : List Op) : openCalls (a ++ b) = openCalls a ++ openCalls b := by
  simp [openCalls, List.filterMap_append]

theorem copyCell_cellWrites (w : World) (srcFile : SourceFile) (s d : GoString) (rowIdx colIdx : Nat)
    (v : GoString) (st : List Op × StyleMap) :
    cellWrites (copyCell w srcFile s d rowIdx colIdx v st).1 =
      cellWrites st.1 ++ (cellWrite w d (rowIdx + 1, colIdx + 1, v)).toList := by
  unfold copyCell cellWrite
  cases hn : w.CoordinatesToCellName (colIdx + 1) (rowIdx + 1) with
  | error e => simp
  | ok name =>
    simp only
    repeat' split
    all_goals simp_all [cellWrites_append, cellWrites]

theorem copyCell_openCalls (w : World) (srcFile : SourceFile) (s d : GoString) (rowIdx colIdx : Nat)
    (v : GoString) (st : List Op × StyleMap) :
    openCalls (copyCell w srcFile s d rowIdx colIdx v st).1 = openCalls st.1 := by
  unfold copyCell
  cases hn : w.CoordinatesToCellName (colIdx + 1) (rowIdx + 1) with
  | error e => simp
  | ok name =>
    simp only
    repeat' split
    all_goals simp_all [openCalls_append, openCalls]

theorem toList_append_filterMap {α β : Type} (f : α → Option β) (a : α) (l : List α) :
    (f a).toList ++ l.filterMap f = (a :: l).filterMap f := by
  cases h : f a <;> simp [List.filterMap_cons, h]

theorem copyRow_cellWrites (w : World) (srcFile : SourceFile) (s d : GoString) (rowIdx : Nat)
    (row : List GoString) (colIdx : Nat) (st : List Op × StyleMap) :
    cellWrites (copyRow w srcFile s d rowIdx colIdx row st).1 =
      cellWrites st.1 ++
        ((row.enumFrom colIdx).map (fun c => (rowIdx + 1, c.1 + 1, c.2))).filterMap
          (cellWrite w d) := by
  induction row generalizing colIdx st with
  | nil => simp [copyRow]
  | cons v vs ih =>
    simp only [copyRow, List.enumFrom_cons, List.map_cons]
    rw [ih, copyCell_cellWrites, List.append_assoc, toList_append_filterMap]

theorem copyRow_openCalls (w : World) (srcFile : SourceFile) (s d : GoString) (rowIdx : Nat)
    (row : List GoString) (colIdx : Nat) (st : List Op × StyleMap) :
    openCalls (copyRow w srcFile s d rowIdx colIdx row st).1 = openCalls st.1 := by
  induction row generalizing colIdx st with
  | nil => simp [copyRow]
  | cons v vs ih =>
    simp only [copyRow]
    rw [ih, copyCell_openCalls]

theorem copyRows_cellWrites (w : World) (srcFile : SourceFile) (s d : GoString)
    (rows : List (List GoString)) (rowIdx : Nat) (st : List Op × StyleMap) :
    cellWrites (copyRows w srcFile s d rowIdx rows st).1 =
      cellWrites st.1 ++
        ((rows.enumFrom rowIdx).flatMap
          (fun r => r.2.enum.map (fun c => (r.1 + 1, c.1 + 1, c.2)))).filterMap
          (cellWrite w d) := by
  induction rows generalizing rowIdx st with
  | nil => simp [copyRows]
  | cons row more ih =>
    simp only [copyRows, List.enumFrom_cons, List.flatMap_cons, List.filterMap_append]
    rw [ih, copyRow_cellWrites, List.append_assoc]
    rfl

theorem copyRows_openCalls (w : World) (srcFile : SourceFile) (s d : GoString)
    (rows : List (List GoString)) (rowIdx : Nat) (st : List Op × StyleMap) :
    openCalls (copyRows w srcFile s d rowIdx rows st).1 = openCalls st.1 := by
  induction rows generalizing rowIdx st with
  | nil => simp [copyRows]
  | cons row more ih =>
    simp only [copyRows]
    rw [ih, copyRow_openCalls]

theorem copyColWidths_cellWrites (w : World) (srcFile : SourceFile) (s d : GoString)
    (cols : List Nat) (trace : List Op) :
    cellWrites (copyColWidths w srcFile s d cols trace) = cellWrites trace := by
  induction cols generalizing trace with
  | nil => simp [copyColWidths]
  | cons c cs ih =>
    simp only [copyColWidths]
    rw [ih]
    repeat' split
    all_goals simp [cellWrites_append, cellWrites]

theorem copyColWidths_openCalls (w : World) (srcFile : SourceFile) (s d : GoString)
    (cols : List Nat) (trace : List Op) :
    openCalls (copyColWidths w srcFile s d cols trace) = openCalls trace := by
  induction cols generalizing trace with
  | nil => simp [copyColWidths]
  | cons c cs ih =>
    simp only [copyColWidths]
    rw [ih]
    repeat' split
    all_goals simp [openCalls_append, openCalls]

theorem copyRowHeights_cellWrites (srcFile : SourceFile) (s d : GoString)
    (idx : List Nat) (trace : List Op) :
    cellWrites (copyRowHeights srcFile s d idx trace) = cellWrites trace := by
  induction idx generalizing trace with
  | nil => simp [copyRowHeights]
  | cons c cs ih =>
    simp only [copyRowHeights]
    rw [ih]
    repeat' split
    all_goals simp [cellWrites_append, cellWrites]

theorem copyRowHeights_openCalls (srcFile : SourceFile) (s d : GoString)
    (idx : List Nat) (trace : List Op) :
    openCalls (copyRowHeights srcFile s d idx trace) = openCalls trace := by
  induction idx generalizing trace with
  | nil => simp [copyRowHeights]
  | cons c cs ih =>
    simp only [copyRowHeights]
    rw [ih]
    repeat' split
    all_goals simp [openCalls_append, openCalls]

theorem mergeOps_cellWrites (d : GoString) (cells : List MergeCell) :
    cellWrites (cells.map (fun m => Op.MergeCell d m.GetStartAxis m.GetEndAxis)) = [] := by
  induction cells with
  | nil => rfl
  | cons c cs ih => simp [cellWrites]

theorem mergeOps_openCalls (d : GoString) (cells : List MergeCell) :
    openCalls (cells.map (fun m => Op.MergeCell d m.GetStartAxis m.GetEndAxis)) = [] := by
  induction cells with
  | nil => rfl
  | cons c cs ih => simp [openCalls]

theorem copySheetWithFormat_openCalls (w : World) (trace : List Op) (srcFile : SourceFile)
    (s d : GoString) :
    openCalls (copySheetWithFormat w trace srcFile s d).2 = openCalls trace := by
  unfold copySheetWithFormat
  cases h1 : w.NewSheet trace d with
  | error e => simp [openCalls_append, openCalls]
  | ok index =>
    cases h2 : srcFile.GetRows s with
    | error e => simp [openCalls_append, openCalls]
    | ok rows =>
      cases h3 : srcFile.GetMergeCells s with
      | error e =>
        simp only [copyRowHeights_openCalls, copyColWidths_openCalls, copyRows_openCalls]
        simp [openCalls_append, openCalls]
      | ok cells =>
        simp only [openCalls_append, mergeOps_openCalls, copyRowHeights_openCalls,
          copyColWidths_openCalls, copyRows_openCalls]
        simp [openCalls]

theorem copySheetWithFormat_cellWrites (w : World) (trace : List Op) (srcFile : SourceFile)
    (s d : GoString) (index : Int) (rows : List (List GoString))
    (h1 : w.NewSheet trace d = .ok index) (h2 : srcFile.GetRows s = .ok rows) :
    (copySheetWithFormat w trace srcFile s d).1 = none ∧
    cellWrites (copySheetWithFormat w trace srcFile s d).2 =
      cellWrites trace ++ (gridCells rows).filterMap (cellWrite w d) := by
  unfold copySheetWithFormat gridCells
  simp only [h1, h2, true_and]
  cases h3 : srcFile.GetMergeCells s with
  | error e =>
    simp only [copyRowHeights_cellWrites, copyColWidths_cellWrites, copyRows_cellWrites]
    simp [cellWrites_append, cellWrites, List.enum]
  | ok cells =>
    simp only [cellWrites_append, mergeOps_cellWrites, copyRowHeights_cellWrites,
      copyColWidths_cellWrites, copyRows_cellWrites]
    simp [cellWrites, List.enum]

theorem values_of_valid (w : World) (d : GoString) (l : List (Nat × Nat × GoString))
    (hvalid : ∀ cell ∈ l, ∃ name, w.CoordinatesToCellName cell.2.1 cell.1 = .ok name) :
    (l.filterMap (cellWrite w d)).map (fun x => x.2.2) = l.map (fun c => c.2.2) := by
  induction l with
  | nil => rfl
  | cons c cs ih =>
    obtain ⟨name, hname⟩ := hvalid c (List.mem_cons_self _ _)
    have hc : cellWrite w d c = some (d, name, c.2.2) := by simp [cellWrite, hname]
    rw [List.filterMap_cons, hc]
    simp only [List.map_cons]
    rw [ih (fun cell hcell => hvalid cell (List.mem_cons_of_mem _ hcell))]

/-- C6 (amended): a successful `copySheetWithFormat` writes one value for every
cell of the row grid that `GetRows` returned and whose coordinates have a cell
name, the cells with an empty value included, in row-major order, each into
the cell of the same row and column and with the same value.  When all
coordinates have a cell name, the values written are those of the grid, cell
by cell: as many writes as the grid has cells, of which exactly the `N`
non-empty cells carry a non-empty value. -/
theorem copySheetWithFormat_writes_grid (w : World) (trace : List Op) (srcFile : SourceFile)
    (s d : GoString) (rows : List (List GoString))
    (hok : (copySheetWithFormat w trace srcFile s d).1 = none)
    (hrows : srcFile.GetRows s = .ok rows) :
    cellWrites (copySheetWithFormat w trace srcFile s d).2 =
      cellWrites trace ++ (gridCells rows).filterMap (cellWrite w d) ∧
    ((∀ cell ∈ gridCells rows, ∃ name, w.CoordinatesToCellName cell.2.1 cell.1 = .ok name) →
      ((gridCells rows).filterMap (cellWrite w d)).map (fun x => x.2.2) =
        (gridCells rows).map (fun c => c.2.2) ∧
      ((gridCells rows).filterMap (cellWrite w d)).length = (gridCells rows).length ∧
      (((gridCells rows).filterMap (cellWrite w d)).filter
        (fun x => decide (x.2.2 ≠ []))).length = nonEmptyCells rows) := by
  cases h1 : w.NewSheet trace d with
  | error e => simp [copySheetWithFormat, h1] at hok
  | ok index =>
    refine ⟨(copySheetWithFormat_cellWrites w trace srcFile s d index rows h1 hrows).2, ?_⟩
    intro hvalid
    have hv := values_of_valid w d (gridCells rows) hvalid
    refine ⟨hv, ?_, ?_⟩
    · have := congrArg List.length hv
      simpa using this
    · have h2 := congrArg (fun l => (l.filter (fun v => decide (v ≠ []))).length) hv
      simp only [List.filter_map, List.length_map] at h2
      exact h2

theorem copySheetWithFormat_writes_grid_witness :
    (copySheetWithFormat (plainWorld [] [] [[utf8 "a", utf8 "b"], [utf8 "c"]] none) []
        (plainSource [[utf8 "a", utf8 "b"], [utf8 "c"]]) (utf8 "Sheet1") (utf8 "out")).1 = none ∧
    (plainSource [[utf8 "a", utf8 "b"], [utf8 "c"]]).GetRows (utf8 "Sheet1") =
      .ok [[utf8 "a", utf8 "b"], [utf8 "c"]] ∧
    cellWrites (copySheetWithFormat (plainWorld [] [] [[utf8 "a", utf8 "b"], [utf8 "c"]] none) []
        (plainSource [[utf8 "a", utf8 "b"], [utf8 "c"]]) (utf8 "Sheet1") (utf8 "out")).2 =
      [(utf8 "out", utf8 "A1", utf8 "a"), (utf8 "out", utf8 "B1", utf8 "b"),
        (utf8 "out", utf8 "A2", utf8 "c")] :=
  ⟨by decide, rfl,
    (copySheetWithFormat_writes_grid (plainWorld [] [] [[utf8 "a", utf8 "b"], [utf8 "c"]] none) []
      (plainSource [[utf8 "a", utf8 "b"], [utf8 "c"]]) (utf8 "Sheet1") (utf8 "out")
      [[utf8 "a", utf8 "b"], [utf8 "c"]] (by decide) rfl).1.trans (by decide)⟩

/-- C6 as stated fails: the row `a, (empty), b` has two non-empty cells, and
the copy writes three cells, the empty one included. -/
theorem copySheetWithFormat_writes_empty_cells :
    ¬ ∀ (w : World) (srcFile : SourceFile) (s d : GoString) (rows : List (List GoString)),
      (copySheetWithFormat w [] srcFile s d).1 = none → srcFile.GetRows s = .ok rows →
      (cellWrites (copySheetWithFormat w [] srcFile s d).2).length = nonEmptyCells rows := by
  intro h
  have h1 := h (plainWorld [] [] [[utf8 "a", [], utf8 "b"]] none)
    (plainSource [[utf8 "a", [], utf8 "b"]]) (utf8 "Sheet1") (utf8 "out")
    [[utf8 "a", [], utf8 "b"]] (by decide) rfl
  revert h1
  decide

/-! ## The merge run -/

theorem mergeSheets_openCalls (w : World) (em : ExcelMerger) (filePath : GoString)
    (sourceFile : SourceFile) (sheets : List GoString) (trace : List Op) (t : CountTable) :
    openCalls (mergeSheets w em filePath sourceFile sheets trace t).2.1 = openCalls trace := by
  induction sheets generalizing trace t with
  | nil => simp [mergeSheets]
  | cons sh more ih =>
    simp only [mergeSheets]
    split
    · simp [copySheetWithFormat_openCalls]
    · rw [ih, copySheetWithFormat_openCalls]

theorem mergeExcelFile_openCalls (w : World) (em : ExcelMerger) (trace : List Op)
    (filePath : GoString) (t : CountTable) :
    openCalls (mergeExcelFile w em trace filePath t).2.1 = openCalls trace ++ [filePath] := by
  unfold mergeExcelFile
  cases h : w.OpenFile filePath with
  | error e => simp [openCalls_append, openCalls]
  | ok sourceFile =>
    simp only [openCalls_append, mergeSheets_openCalls]
    simp [openCalls]

theorem mergeFiles_openCalls (w : World) (em : ExcelMerger) (files : List GoString)
    (trace : List Op) (t : CountTable) :
    openCalls (mergeFiles w em files trace t).1 = openCalls trace ++ files := by
  induction files generalizing trace t with
  | nil => simp [mergeFiles]
  | cons p more ih =>
    simp only [mergeFiles]
    rw [ih, mergeExcelFile_openCalls]
    simp

/-- C7: when the walk ends without error and no file qualifies, and also when
the walk returns an error, `Merge` returns an error and its trace holds no
`SaveAs` call. -/
theorem Merge_fails_without_files (std : GoStd) (w : World) (em : ExcelMerger)
    (h : ((findExcelFiles std w em).2 = none ∧ (findExcelFiles std w em).1 = []) ∨
      (findExcelFiles std w em).2 ≠ none) :
    (Merge std w em).1 ≠ none ∧ ∀ op ∈ (Merge std w em).2, op.isSaveAs = false := by
  unfold Merge
  rcases hf : findExcelFiles std w em with ⟨files, err⟩
  rw [hf] at h
  cases err with
  | some e => simp [Op.isSaveAs]
  | none =>
    rcases h with ⟨_, h2⟩ | h2
    · simp only at h2
      subst h2
      simp [Op.isSaveAs]
    · exact absurd rfl h2

theorem Merge_fails_without_files_witness :
    ((Merge goStd (plainWorld [fileStep (utf8 "/data/notes.txt") { Name := utf8 "notes.txt" }]
        [] [] none)
      (NewExcelMerger (utf8 "/data") (utf8 "/out.xlsx") (some (DefaultFilter.toFileFilter goStd))
        (FirstLevelDirNamer.toSheetNamer goStd))).1 ≠ none ∧
    ∀ op ∈ (Merge goStd (plainWorld [fileStep (utf8 "/data/notes.txt") { Name := utf8 "notes.txt" }]
        [] [] none)
      (NewExcelMerger (utf8 "/data") (utf8 "/out.xlsx") (some (DefaultFilter.toFileFilter goStd))
        (FirstLevelDirNamer.toSheetNamer goStd))).2, op.isSaveAs = false) ∧
    ((Merge goStd (plainWorld [failedStep (utf8 "/data") (GoError.external 13)] [] [] none)
      (NewExcelMerger (utf8 "/data") (utf8 "/out.xlsx") (some (DefaultFilter.toFileFilter goStd))
        (FirstLevelDirNamer.toSheetNamer goStd))).1 ≠ none ∧
    ∀ op ∈ (Merge goStd (plainWorld [failedStep (utf8 "/data") (GoError.external 13)] [] [] none)
      (NewExcelMerger (utf8 "/data") (utf8 "/out.xlsx") (some (DefaultFilter.toFileFilter goStd))
        (FirstLevelDirNamer.toSheetNamer goStd))).2, op.isSaveAs = false) :=
  ⟨Merge_fails_without_files goStd _ _ (Or.inl (by decide)),
    Merge_fails_without_files goStd _ _ (Or.inr (by decide))⟩

theorem copyCell_extends (w : World) (srcFile : SourceFile) (s d : GoString) (rowIdx colIdx : Nat)
    (v : GoString) (st : List Op × StyleMap) :
    st.1 <+: (copyCell w srcFile s d rowIdx colIdx v st).1 := by
  unfold copyCell
  cases hn : w.CoordinatesToCellName (colIdx + 1) (rowIdx + 1) with
  | error e => simp
  | ok name =>
    simp only
    repeat' split
    all_goals simp_all [List.prefix_append]

theorem copyRow_extends (w : World) (srcFile : SourceFile) (s d : GoString) (rowIdx : Nat)
    (row : List GoString) (colIdx : Nat) (st : List Op × StyleMap) :
    st.1 <+: (copyRow w srcFile s d rowIdx colIdx row st).1 := by
  induction row generalizing colIdx st with
  | nil => simp [copyRow]
  | cons v vs ih =>
    simp only [copyRow]
    exact (copyCell_extends w srcFile s d rowIdx colIdx v st).trans (ih _ _)

theorem copyRows_extends (w : World) (srcFile : SourceFile) (s d : GoString)
    (rows : List (List GoString)) (rowIdx : Nat) (st : List Op × StyleMap) :
    st.1 <+: (copyRows w srcFile s d rowIdx rows st).1 := by
  induction rows generalizing rowIdx st with
  | nil => simp [copyRows]
  | cons row more ih =>
    simp only [copyRows]
    exact (copyRow_extends w srcFile s d rowIdx row 0 st).trans (ih _ _)

theorem copyColWidths_extends (w : World) (srcFile : SourceFile) (s d : GoString)
    (cols : List Nat) (trace : List Op) :
    trace <+: copyColWidths w srcFile s d cols trace := by
  induction cols generalizing trace with
  | nil => simp [copyColWidths]
  | cons c cs ih =>
    simp only [copyColWidths]
    refine List.IsPrefix.trans ?_ (ih _)
    repeat' split
    all_goals simp [List.prefix_append]

theorem copyRowHeights_extends (srcFile : SourceFile) (s d : GoString)
    (idx : List Nat) (trace : List Op) :
    trace <+: copyRowHeights srcFile s d idx trace := by
  induction idx generalizing trace with
  | nil => simp [copyRowHeights]
  | cons c cs ih =>
    simp only [copyRowHeights]
    refine List.IsPrefix.trans ?_ (ih _)
    repeat' split
    all_goals simp [List.prefix_append]

theorem copySheetWithFormat_extends (w : World) (trace : List Op) (srcFile : SourceFile)
    (s d : GoString) :
    trace <+: (copySheetWithFormat w trace srcFile s d).2 := by
  unfold copySheetWithFormat
  cases h1 : w.NewSheet trace d with
  | error e => simp [List.prefix_append]
  | ok index =>
    cases h2 : srcFile.GetRows s with
    | error e => simp [List.prefix_append]
    | ok rows =>
      have h3 : trace <+: trace ++ [Op.NewSheet d, Op.SetActiveSheet index] :=
        List.prefix_append _ _
      have h4 := copyRows_extends w srcFile s d rows 0
        (trace ++ [Op.NewSheet d, Op.SetActiveSheet index], fun _ => none)
      have h5 := copyColWidths_extends w srcFile s d (List.range 100)
        (copyRows w srcFile s d 0 rows
          (trace ++ [Op.NewSheet d, Op.SetActiveSheet index], fun _ => none)).1
      have h6 := copyRowHeights_extends srcFile s d
        ((List.range rows.length).map (fun i => i + 1))
        (copyColWidths w srcFile s d (List.range 100)
          (copyRows w srcFile s d 0 rows
            (trace ++ [Op.NewSheet d, Op.SetActiveSheet index], fun _ => none)).1)
      have h7 := ((h3.trans h4).trans h5).trans h6
      cases h8 : srcFile.GetMergeCells s with
      | error e => simpa using h7
      | ok cells => exact h7.trans (by simp [List.prefix_append])

theorem mergeSheets_extends (w : World) (em : ExcelMerger) (filePath : GoString)
    (sourceFile : SourceFile) (sheets : List GoString) (trace : List Op) (t : CountTable) :
    trace <+: (mergeSheets w em filePath sourceFile sheets trace t).2.1 := by
  induction sheets generalizing trace t with
  | nil => simp [mergeSheets]
  | cons sh more ih =>
    simp only [mergeSheets]
    split
    · exact copySheetWithFormat_extends _ _ _ _ _
    · exact (copySheetWithFormat_extends _ _ _ _ _).trans (ih _ _)

theorem mergeExcelFile_extends (w : World) (em : ExcelMerger) (trace : List Op)
    (filePath : GoString) (t : CountTable) :
    trace <+: (mergeExcelFile w em trace filePath t).2.1 := by
  unfold mergeExcelFile
  cases h : w.OpenFile filePath with
  | error e => simp [List.prefix_append]
  | ok sourceFile =>
    exact ((List.prefix_append trace [Op.OpenFile filePath]).trans
      (mergeSheets_extends _ _ _ _ _ _ _)).trans (List.prefix_append _ _)

theorem mergeFiles_extends (w : World) (em : ExcelMerger) (files : List GoString)
    (trace : List Op) (t : CountTable) :
    trace <+: (mergeFiles w em files trace t).1 := by
  induction files generalizing trace t with
  | nil => simp [mergeFiles]
  | cons p more ih =>
    simp only [mergeFiles]
    exact (mergeExcelFile_extends w em trace p t).trans (ih _ _)

theorem mergeFiles_append (w : World) (em : ExcelMerger) (pre post : List GoString)
    (trace : List Op) (t : CountTable) :
    mergeFiles w em (pre ++ post) trace t =
      mergeFiles w em post (mergeFiles w em pre trace t).1 (mergeFiles w em pre trace t).2 := by
  induction pre generalizing trace t with
  | nil => simp [mergeFiles]
  | cons p more ih =>
    simp only [List.cons_append, mergeFiles]
    exact ih _ _

theorem mergeExcelFile_closes (w : World) (em : ExcelMerger) (trace : List Op)
    (filePath : GoString) (t : CountTable) (sourceFile : SourceFile)
    (h : w.OpenFile filePath = .ok sourceFile) :
    (mergeExcelFile w em trace filePath t).2.1 =
      (mergeSheets w em filePath sourceFile sourceFile.GetSheetList
        (trace ++ [Op.OpenFile filePath]) t).2.1 ++ [Op.CloseSource filePath] := by
  simp [mergeExcelFile, h]

theorem copySheetWithFormat_starts (w : World) (trace : List Op) (srcFile : SourceFile)
    (s d : GoString) :
    trace ++ [Op.NewSheet d] <+: (copySheetWithFormat w trace srcFile s d).2 := by
  unfold copySheetWithFormat
  cases h1 : w.NewSheet trace d with
  | error e => simp
  | ok index =>
    have h3 : trace ++ [Op.NewSheet d] <+: trace ++ [Op.NewSheet d, Op.SetActiveSheet index] :=
      ⟨[Op.SetActiveSheet index], by simp⟩
    cases h2 : srcFile.GetRows s with
    | error e => simp
    | ok rows =>
      have h4 := copyRows_extends w srcFile s d rows 0
        (trace ++ [Op.NewSheet d, Op.SetActiveSheet index], fun _ => none)
      have h5 := copyColWidths_extends w srcFile s d (List.range 100)
        (copyRows w srcFile s d 0 rows
          (trace ++ [Op.NewSheet d, Op.SetActiveSheet index], fun _ => none)).1
      have h6 := copyRowHeights_extends srcFile s d
        ((List.range rows.length).map (fun i => i + 1))
        (copyColWidths w srcFile s d (List.range 100)
          (copyRows w srcFile s d 0 rows
            (trace ++ [Op.NewSheet d, Op.SetActiveSheet index], fun _ => none)).1)
      have h7 := ((h3.trans h4).trans h5).trans h6
      cases h8 : srcFile.GetMergeCells s with
      | error e => simpa using h7
      | ok cells => exact h7.trans (by simp [List.prefix_append])

theorem mergeSheets_starts (w : World) (em : ExcelMerger) (filePath : GoString)
    (sourceFile : SourceFile) (sh : GoString) (more : List GoString) (trace : List Op)
    (t : CountTable) :
    trace ++ [Op.NewSheet
      (getUniqueSheetName em (em.namer.GetSheetName filePath em.sourceDir) sh t).1] <+:
      (mergeSheets w em filePath sourceFile (sh :: more) trace t).2.1 := by
  simp only [mergeSheets]
  split
  · exact copySheetWithFormat_starts _ _ _ _ _
  · exact (copySheetWithFormat_starts _ _ _ _ _).trans (mergeSheets_extends _ _ _ _ _ _ _)

theorem mergeFiles_split (w : World) (em : ExcelMerger) (pre post : List GoString)
    (f : GoString) (trace : List Op) (t : CountTable) :
    ∃ rest, (mergeFiles w em (pre ++ f :: post) trace t).1 =
      (mergeExcelFile w em (mergeFiles w em pre trace t).1 f
        (mergeFiles w em pre trace t).2).2.1 ++ rest ∧ openCalls rest = post := by
  rw [mergeFiles_append]
  simp only [mergeFiles]
  obtain ⟨rest, hrest⟩ := mergeFiles_extends w em post
    (mergeExcelFile w em (mergeFiles w em pre trace t).1 f (mergeFiles w em pre trace t).2).2.1
    (mergeExcelFile w em (mergeFiles w em pre trace t).1 f (mergeFiles w em pre trace t).2).2.2
  refine ⟨rest, hrest.symm, ?_⟩
  have h := mergeFiles_openCalls w em post
    (mergeExcelFile w em (mergeFiles w em pre trace t).1 f (mergeFiles w em pre trace t).2).2.1
    (mergeExcelFile w em (mergeFiles w em pre trace t).1 f (mergeFiles w em pre trace t).2).2.2
  rw [← hrest, openCalls_append] at h
  exact List.append_cancel_left h

theorem Merge_trace (std : GoStd) (w : World) (em : ExcelMerger)
    (files : List GoString) (hfind : findExcelFiles std w em = (files, none))
    (hne : files ≠ []) :
    (Merge std w em).2 =
      (mergeFiles w em files [Op.NewFile, Op.DeleteSheet (utf8 "Sheet1")] CountTable.empty).1 ++
        [Op.SaveAs em.outputPath, Op.CloseOutput] := by
  have hlen : ¬ files.length = 0 := by
    intro h0
    exact hne (List.length_eq_zero.mp h0)
  unfold Merge
  simp only [hfind, hlen, if_false]
  split <;> simp

/-- C8: when the walk found a non-empty list of files, `Merge` runs
`mergeExcelFile` on every one of them, in the order found, whatever failed in
the files before it: the run opens exactly the files found, in order; for every
file `f` the trace of the run begins with the trace of `mergeExcelFile` on `f`,
run in the state that the files before `f` left, and goes on to open exactly
the files after `f`; a file that opens is closed again, and if it has a sheet,
a `NewSheet` call follows its `OpenFile` call.  The last two calls of the run
are `SaveAs` on the output path and the `Close` of the output workbook, and
`Merge` returns an error iff that `SaveAs` returns one. -/
theorem Merge_continues_past_failures (std : GoStd) (w : World) (em : ExcelMerger)
    (files : List GoString) (hfind : findExcelFiles std w em = (files, none))
    (hne : files ≠ []) :
    openCalls (Merge std w em).2 = files ∧
    (∀ pre f post, files = pre ++ f :: post →
      ∃ rest, (Merge std w em).2 =
        (mergeExcelFile w em
          (mergeFiles w em pre [Op.NewFile, Op.DeleteSheet (utf8 "Sheet1")] CountTable.empty).1 f
          (mergeFiles w em pre [Op.NewFile, Op.DeleteSheet (utf8 "Sheet1")]
            CountTable.empty).2).2.1 ++ rest ∧
        openCalls rest = post) ∧
    (∀ f ∈ files, ∀ sourceFile, w.OpenFile f = .ok sourceFile →
      Op.CloseSource f ∈ (Merge std w em).2 ∧
      ∀ sh more, sourceFile.GetSheetList = sh :: more →
        ∃ before name rest,
          (Merge std w em).2 = before ++ [Op.OpenFile f, Op.NewSheet name] ++ rest) ∧
    ∃ before, (Merge std w em).2 = before ++ [Op.SaveAs em.outputPath, Op.CloseOutput] ∧
      ((Merge std w em).1 ≠ none ↔ w.SaveAs before em.outputPath ≠ none) := by
  have hlen : ¬ files.length = 0 := by
    intro h0
    exact hne (List.length_eq_zero.mp h0)
  have htrace := Merge_trace std w em files hfind hne
  have hsplit : ∀ pre f post, files = pre ++ f :: post →
      ∃ rest, (Merge std w em).2 =
        (mergeExcelFile w em
          (mergeFiles w em pre [Op.NewFile, Op.DeleteSheet (utf8 "Sheet1")] CountTable.empty).1 f
          (mergeFiles w em pre [Op.NewFile, Op.DeleteSheet (utf8 "Sheet1")]
            CountTable.empty).2).2.1 ++ rest ∧
        openCalls rest = post := by
    intro pre f post hfiles
    obtain ⟨rest, h1, h2⟩ := mergeFiles_split w em pre post f
      [Op.NewFile, Op.DeleteSheet (utf8 "Sheet1")] CountTable.empty
    refine ⟨rest ++ [Op.SaveAs em.outputPath, Op.CloseOutput], ?_, ?_⟩
    · rw [htrace, hfiles, h1, List.append_assoc]
    · rw [openCalls_append, h2]
      simp [openCalls]
  refine ⟨?_, hsplit, ?_, (mergeFiles w em files [Op.NewFile, Op.DeleteSheet (utf8 "Sheet1")]
      CountTable.empty).1, htrace, ?_⟩
  · rw [htrace, openCalls_append, mergeFiles_openCalls]
    simp [openCalls]
  · intro f hf sourceFile hopen
    obtain ⟨pre, post, hfiles⟩ := List.append_of_mem hf
    obtain ⟨rest, h1, _⟩ := hsplit pre f post hfiles
    rw [mergeExcelFile_closes w em _ f _ sourceFile hopen] at h1
    constructor
    · rw [h1]
      simp
    · intro sh more hsheets
      rw [hsheets] at h1
      obtain ⟨r2, hr2⟩ := mergeSheets_starts w em f sourceFile sh more
        ((mergeFiles w em pre [Op.NewFile, Op.DeleteSheet (utf8 "Sheet1")]
          CountTable.empty).1 ++ [Op.OpenFile f])
        (mergeFiles w em pre [Op.NewFile, Op.DeleteSheet (utf8 "Sheet1")] CountTable.empty).2
      refine ⟨(mergeFiles w em pre [Op.NewFile, Op.DeleteSheet (utf8 "Sheet1")]
          CountTable.empty).1,
        (getUniqueSheetName em (em.namer.GetSheetName f em.sourceDir) sh
          (mergeFiles w em pre [Op.NewFile, Op.DeleteSheet (utf8 "Sheet1")]
            CountTable.empty).2).1,
        r2 ++ [Op.CloseSource f] ++ rest, ?_⟩
      rw [h1, ← hr2]
      simp [List.append_assoc]
  · unfold Merge
    simp only [hfind, hlen, if_false]
    split <;> simp_all

theorem Merge_continues_past_failures_witness :
    findExcelFiles goStd brokenFirstWorld mainMerger =
      ([utf8 "/data/2024/a.xlsx", utf8 "/data/2025/b.xlsx"], none) ∧
    brokenFirstWorld.OpenFile (utf8 "/data/2024/a.xlsx") = .error (GoError.external 2) ∧
    openCalls (Merge goStd brokenFirstWorld mainMerger).2 =
      [utf8 "/data/2024/a.xlsx", utf8 "/data/2025/b.xlsx"] ∧
    cellWrites (Merge goStd brokenFirstWorld mainMerger).2 =
      [(utf8 "2025", utf8 "A1", utf8 "v")] ∧
    (Merge goStd brokenFirstWorld mainMerger).1 = none :=
  ⟨by decide, rfl,
    (Merge_continues_past_failures goStd brokenFirstWorld mainMerger
      [utf8 "/data/2024/a.xlsx", utf8 "/data/2025/b.xlsx"] (by decide) (by decide)).1,
    by decide, by decide⟩

/-! ## Namers -/

theorem extScan_found (l r acc : GoString) (hsep : Separator ∉ l) (hdot : dot ∉ l) :
    extScan (l ++ dot :: r) acc = dot :: (l.reverse ++ acc) := by
  induction l generalizing acc with
  | nil => simp [extScan, dot, Separator]
  | cons c cs ih =>
    have h1 : c ≠ Separator := fun e => hsep (by simp [e])
    have h2 : c ≠ dot := fun e => hdot (by simp [e])
    have h3 : Separator ∉ cs := fun m => hsep (List.mem_cons_of_mem _ m)
    have h4 : dot ∉ cs := fun m => hdot (List.mem_cons_of_mem _ m)
    simp [extScan, h1, h2, ih _ h3 h4]

theorem extScan_none (l r acc : GoString) (hdot : dot ∉ l)
    (hr : r = [] ∨ ∃ r2, r = Separator :: r2) :
    extScan (l ++ r) acc = [] := by
  induction l generalizing acc with
  | nil =>
    rcases hr with rfl | ⟨r2, rfl⟩
    · simp [extScan]
    · simp [extScan]
  | cons c cs ih =>
    have h2 : c ≠ dot := fun e => hdot (by simp [e])
    have h4 : dot ∉ cs := fun m => hdot (List.mem_cons_of_mem _ m)
    by_cases h1 : c = Separator
    · simp [extScan, h1]
    · simp [extScan, h1, h2, ih _ h4]

theorem Ext_with_ext (pre ext : GoString) (hsep : Separator ∉ ext) (hdot : dot ∉ ext) :
    Ext (pre ++ dot :: ext) = dot :: ext := by
  unfold Ext
  rw [List.reverse_append, List.reverse_cons, List.append_assoc]
  have := extScan_found ext.reverse pre.reverse [] (by simpa using hsep) (by simpa using hdot)
  simpa using this

theorem dirs_end (dirs : List GoString) :
    dirs.flatMap (fun d => d ++ [Separator]) = [] ∨
      ∃ p, dirs.flatMap (fun d => d ++ [Separator]) = p ++ [Separator] := by
  induction dirs with
  | nil => left; rfl
  | cons d ds ih =>
    right
    rcases ih with h | ⟨p, h⟩
    · exact ⟨d, by simp [List.flatMap_cons, h]⟩
    · exact ⟨d ++ [Separator] ++ p, by simp [List.flatMap_cons, h]⟩

theorem Ext_without_ext (dirs : List GoString) (stem : GoString) (hdot : dot ∉ stem) :
    Ext (joinPath dirs stem) = [] := by
  unfold Ext joinPath
  rw [List.reverse_append]
  apply extScan_none _ _ _ (by simpa using hdot)
  rcases dirs_end dirs with h | ⟨p, h⟩
  · left; simp [h]
  · right; exact ⟨p.reverse, by simp [h]⟩

theorem TrimSuffix_append (a b : GoString) : TrimSuffix (a ++ b) b = a := by
  unfold TrimSuffix
  have h : b.isSuffixOf (a ++ b) = true := by
    rw [List.isSuffixOf_iff_suffix]
    exact List.suffix_append a b
  simp [h]

theorem TrimSuffix_nil (a : GoString) : TrimSuffix a [] = a := by
  simp [TrimSuffix]

theorem Split_cons_segment (d rest : GoString) (hd : Separator ∉ d) :
    Split (d ++ Separator :: rest) Separator = d :: Split rest Separator := by
  induction d with
  | nil => simp [Split]
  | cons c cs ih =>
    have h1 : c ≠ Separator := fun e => hd (by simp [e])
    have h3 : Separator ∉ cs := fun m => hd (List.mem_cons_of_mem _ m)
    simp [Split, h1, ih h3]

theorem Split_single (d : GoString) (hd : Separator ∉ d) : Split d Separator = [d] := by
  induction d with
  | nil => simp [Split]
  | cons c cs ih =>
    have h1 : c ≠ Separator := fun e => hd (by simp [e])
    have h3 : Separator ∉ cs := fun m => hd (List.mem_cons_of_mem _ m)
    simp [Split, h1, ih h3]

theorem Split_length_pos (s : GoString) : 0 < (Split s Separator).length := by
  induction s with
  | nil => simp [Split]
  | cons c cs ih =>
    unfold Split
    split
    · simp
    · split <;> simp

theorem Base_last_segment (pre seg : GoString) (hseg : Separator ∉ seg) (hne : seg ≠ [])
    (hpre : pre = [] ∨ ∃ p, pre = p ++ [Separator]) : Base (pre ++ seg) = seg := by
  have hne2 : pre ++ seg ≠ [] := by simp [hne]
  have hrev : seg.reverse ≠ [] := by simpa using hne
  obtain ⟨c, cs, hcs⟩ := List.exists_cons_of_ne_nil hrev
  have hc : c ≠ Separator := by
    intro e
    apply hseg
    have : c ∈ seg.reverse := by rw [hcs]; simp
    simpa [e] using this
  have hall : ∀ a ∈ seg.reverse, (!decide (a = Separator)) = true := by
    intro a ha
    have : a ≠ Separator := fun e => hseg (by simpa [e] using ha)
    simp [this]
  unfold Base
  simp only [hne2, if_false, List.reverse_append]
  have hdrop : List.dropWhile (fun c => decide (c = Separator)) (seg.reverse ++ pre.reverse) =
      seg.reverse ++ pre.reverse := by
    rw [hcs]
    simp [List.dropWhile_cons, hc]
  rw [hdrop]
  simp only [List.reverse_append, List.reverse_reverse]
  have htake : List.takeWhile (fun c => !decide (c = Separator)) (seg.reverse ++ pre.reverse) =
      seg.reverse := by
    rw [List.takeWhile_append_of_pos hall]
    rcases hpre with rfl | ⟨p, rfl⟩
    · simp
    · simp [List.takeWhile_cons]
  rw [htake]
  simp [hne]

theorem ReplaceAll_append (a b : GoString) (old : Nat) (new : GoString) :
    ReplaceAll (a ++ b) old new = ReplaceAll a old new ++ ReplaceAll b old new := by
  simp [ReplaceAll, List.flatMap_append]

theorem ReplaceAll_of_not_mem (a : GoString) (old : Nat) (new : GoString) (h : old ∉ a) :
    ReplaceAll a old new = a := by
  induction a with
  | nil => rfl
  | cons c cs ih =>
    have h1 : c ≠ old := fun e => h (by simp [e])
    have h3 : old ∉ cs := fun m => h (List.mem_cons_of_mem _ m)
    have := ih h3
    simp only [ReplaceAll] at this ⊢
    simp [List.flatMap_cons, h1, this]

theorem ReplaceAll_dirs (dirs : List GoString) (new : GoString)
    (hdirs : ∀ d ∈ dirs, Separator ∉ d) :
    ReplaceAll (dirs.flatMap (fun d => d ++ [Separator])) Separator new =
      dirs.flatMap (fun d => d ++ new) := by
  induction dirs with
  | nil => rfl
  | cons d ds ih =>
    have h1 : Separator ∉ d := hdirs d (List.mem_cons_self _ _)
    have h2 := ih (fun x hx => hdirs x (List.mem_cons_of_mem _ hx))
    simp only [List.flatMap_cons, ReplaceAll_append, h2, ReplaceAll_of_not_mem d _ _ h1]
    simp [ReplaceAll]

/-- C9: when the path of the file relative to the base path has a first
segment `d1` followed by more segments, `FirstLevelDirNamer.GetSheetName`
returns `d1`; when the relative path is the single segment `name.ext` and the
file path ends in that segment, it returns `name`. -/
theorem FirstLevelDirNamer_GetSheetName_spec (std : GoStd) (basePath : GoString) :
    (∀ filePath d1 rest : GoString, Separator ∉ d1 →
      std.Rel basePath filePath = .ok (d1 ++ Separator :: rest) →
      FirstLevelDirNamer.GetSheetName std filePath basePath = d1) ∧
    (∀ (dirs : List GoString) (name ext : GoString),
      Separator ∉ name → Separator ∉ ext → dot ∉ ext →
      std.Rel basePath (joinPath dirs (fileName name (some ext))) =
        .ok (fileName name (some ext)) →
      FirstLevelDirNamer.GetSheetName std (joinPath dirs (fileName name (some ext))) basePath =
        name) := by
  constructor
  · intro filePath d1 rest hd hrel
    have hpos := Split_length_pos rest
    simp only [FirstLevelDirNamer.GetSheetName, hrel, Split_cons_segment d1 rest hd,
      List.length_cons, List.headD_cons]
    rw [if_pos (by omega)]
  · intro dirs name ext hname hext hdot hrel
    have hseg : Separator ∉ name ++ dot :: ext := by
      simp only [List.mem_append, List.mem_cons, not_or]
      exact ⟨hname, by decide, hext⟩
    simp only [fileName] at hrel ⊢
    have hbase : Base (joinPath dirs (name ++ dot :: ext)) = name ++ dot :: ext :=
      Base_last_segment _ _ hseg (by simp) (dirs_end dirs)
    have hx : Ext (joinPath dirs (name ++ dot :: ext)) = dot :: ext := by
      have := Ext_with_ext (dirs.flatMap (fun d => d ++ [Separator]) ++ name) ext hext hdot
      simpa [joinPath] using this
    simp only [FirstLevelDirNamer.GetSheetName, hrel, Split_single _ hseg]
    simp [fileStem, hbase, hx, TrimSuffix_append]

theorem FirstLevelDirNamer_GetSheetName_spec_witness :
    (Separator ∉ utf8 "2024" ∧
      filepathRel (utf8 "/data") (utf8 "/data/2024/q1/report.xlsx") =
        .ok (utf8 "2024" ++ Separator :: utf8 "q1/report.xlsx") ∧
      FirstLevelDirNamer.GetSheetName goStd (utf8 "/data/2024/q1/report.xlsx") (utf8 "/data") =
        utf8 "2024") ∧
    (filepathRel (utf8 "/data") (utf8 "/data/report.xlsx") = .ok (utf8 "report.xlsx") ∧
      FirstLevelDirNamer.GetSheetName goStd (utf8 "/data/report.xlsx") (utf8 "/data") =
        utf8 "report") :=
  ⟨⟨by decide, by decide,
      (FirstLevelDirNamer_GetSheetName_spec goStd (utf8 "/data")).1
        (utf8 "/data/2024/q1/report.xlsx") (utf8 "2024") (utf8 "q1/report.xlsx")
        (by decide) (by decide)⟩,
    ⟨by decide,
      (FirstLevelDirNamer_GetSheetName_spec goStd (utf8 "/data")).2
        [[], utf8 "data"] (utf8 "report") (utf8 "xlsx")
        (by decide) (by decide) (by decide) (by decide)⟩⟩

/-- C10: when the path of the file relative to the base path is
`d1/.../dk/name.ext` (or `d1/.../dk/name` with no dot in `name`),
`FullPathNamer.GetSheetName` returns `d1 s ... dk s name`, the relative path
without its final extension and with every separator replaced by the joiner
`s`, which is `_` when the configured joiner is empty. -/
theorem FullPathNamer_GetSheetName_spec (std : GoStd) (n : FullPathNamer)
    (basePath filePath : GoString) (dirs : List GoString) (name : GoString)
    (ext : Option GoString)
    (hdirs : ∀ d ∈ dirs, Separator ∉ d) (hname : Separator ∉ name)
    (hext : ∀ e, ext = some e → Separator ∉ e ∧ dot ∉ e) (hnone : ext = none → dot ∉ name)
    (hrel : std.Rel basePath filePath = .ok (joinPath dirs (fileName name ext))) :
    FullPathNamer.GetSheetName std n filePath basePath =
      dirs.flatMap (fun d => d ++ (if n.Separator = [] then [underscore] else n.Separator)) ++
        name := by
  simp only [FullPathNamer.GetSheetName, hrel]
  cases ext with
  | none =>
    have hx := Ext_without_ext dirs name (hnone rfl)
    simp only [fileName] at hx ⊢
    rw [hx, TrimSuffix_nil]
    simp only [joinPath, ReplaceAll_append, ReplaceAll_dirs dirs _ hdirs,
      ReplaceAll_of_not_mem name _ _ hname]
  | some e =>
    obtain ⟨h1, h2⟩ := hext e rfl
    have hx := Ext_with_ext (dirs.flatMap (fun d => d ++ [Separator]) ++ name) e h1 h2
    have hj : joinPath dirs (fileName name (some e)) =
        (dirs.flatMap (fun d => d ++ [Separator]) ++ name) ++ dot :: e := by
      simp [joinPath, fileName]
    rw [hj, hx, TrimSuffix_append]
    simp only [ReplaceAll_append, ReplaceAll_dirs dirs _ hdirs,
      ReplaceAll_of_not_mem name _ _ hname]

theorem FullPathNamer_GetSheetName_spec_witness :
    filepathRel (utf8 "/data") (utf8 "/data/2024/q1/report.xlsx") =
      .ok (utf8 "2024/q1/report.xlsx") ∧
    FullPathNamer.GetSheetName goStd { Separator := utf8 "-" } (utf8 "/data/2024/q1/report.xlsx")
      (utf8 "/data") = utf8 "2024-q1-report" ∧
    FullPathNamer.GetSheetName goStd { Separator := [] } (utf8 "/data/2024/q1/report.xlsx")
      (utf8 "/data") = utf8 "2024_q1_report" :=
  ⟨by decide,
    (FullPathNamer_GetSheetName_spec goStd { Separator := utf8 "-" } (utf8 "/data")
      (utf8 "/data/2024/q1/report.xlsx") [utf8 "2024", utf8 "q1"] (utf8 "report")
      (some (utf8 "xlsx")) (by decide) (by decide)
      (fun e he => by cases he; exact ⟨by decide, by decide⟩) (fun h => by cases h)
      (by decide)).trans (by decide),
    (FullPathNamer_GetSheetName_spec goStd { Separator := [] } (utf8 "/data")
      (utf8 "/data/2024/q1/report.xlsx") [utf8 "2024", utf8 "q1"] (utf8 "report")
      (some (utf8 "xlsx")) (by decide) (by decide)
      (fun e he => by cases he; exact ⟨by decide, by decide⟩) (fun h => by cases h)
      (by decide)).trans (by decide)⟩

end MergeExcel
